import Mathlib

/-!
# Krypton IoT authorizer: a shallow embedding of the Go sources

The Go program is a custom authorizer for an MQTT/HTTP broker.  This file
embeds its functions as Lean definitions (one definition per Go function,
with the Go name) and proves properties of them.

Conventions of the embedding

* A Go `string` is a Lean `String`.  Every string the program receives is the
  result of JSON decoding (the event, the token claims, the JWKS document),
  hence valid UTF-8.
* A Go `(value, error)` result is an `Except GoError value`; a bare `error`
  result is an `Option GoError` (`none` is `nil`).
* A Go run-time panic (index out of range, nil dereference) is the outcome
  `Outcome.panicked`; a normal return is `Outcome.returned`.
* The two process-wide variables `signingKeyTable` and `dstsJwksUrl` and the
  number of requests sent so far to the trust source form the explicit
  `State` that stateful functions pass along.
* Library code that is not part of the repository (the JWT parser, the HTTP
  client, the JSON and URL-query decoders) is a field of `Env`.
-/

namespace KryptonIot

/-! ## Outcomes and errors -/

/-- Result of running a piece of Go code: a run-time panic or a normal return. -/
inductive Outcome (α : Type) where
  | panicked : Outcome α
  | returned : α → Outcome α

/-- Error values of the program: the sentinels of `errors.go`, the formatted
error of `getSigningKey`, and the errors produced by library code. -/
inductive GoError where
  | ErrNoLambdaContext
  | ErrMissingAssets
  | ErrInvalidToken
  | ErrInvalidTokenHeaderKid
  | ErrInvalidTokenHeaderSigningAlg
  | ErrInvalidIssuerClaim
  | ErrInvalidAudienceClaim
  | ErrOverflowDetected
  | ErrUnauthorized
  | ErrBadRequest
  /-- The value of `fmt.Errorf("no public key to validate kid: %s", kid)`. -/
  | noPublicKey (kid : String)
  /-- The value `base64.CorruptInputError(offset)`. -/
  | corruptInput (offset : Nat)
  /-- The `*json.SyntaxError` "unexpected end of JSON input". -/
  | jsonUnexpectedEnd
  /-- The value `&jwt.ValidationError{Inner: err, Errors: ValidationErrorUnverifiable}`. -/
  | jwtUnverifiable (inner : GoError)
  /-- Any other error value made by library code, identified by its message. -/
  | library (msg : String)
  deriving DecidableEq, Repr

deriving instance DecidableEq for Except

open GoError Outcome

/-! ## Strings (package `strings`) -/

/-- Go `strings.HasPrefix(s, pre)`. -/
def HasPrefix (s pre : String) : Bool :=
  pre.data.isPrefixOf s.data

/-- Go `strings.TrimPrefix(s, pre)`. -/
def TrimPrefix (s pre : String) : String :=
  if HasPrefix s pre then ⟨s.data.drop pre.data.length⟩ else s

/-- Go `strings.TrimRight(s, "=")`: all trailing `=` removed. -/
def TrimRightEq (s : String) : String :=
  ⟨s.data.rdropWhile (fun c => c == '=')⟩

/-- Pieces of a character list between the occurrences of `sep`. -/
def splitChars (sep : Char) : List Char → List (List Char)
  | [] => [[]]
  | c :: cs =>
    if c = sep then [] :: splitChars sep cs
    else
      match splitChars sep cs with
      | [] => [[c]]
      | piece :: pieces => (c :: piece) :: pieces

/-- Go `strings.Split(s, sep)` for a separator of one character. -/
def Split (s : String) (sep : Char) : List String :=
  (splitChars sep s.data).map String.mk

/-- Go `strings.Replace(s, "-", "", -1)`: every hyphen removed. -/
def ReplaceHyphens (s : String) : String :=
  ⟨s.data.filter (fun c => c != '-')⟩

/-! ## Base64 and big integers (packages `encoding/base64`, `math/big`) -/

/-- One byte. -/
abbrev Byte := Fin 256

/-- Decoding table of `base64.RawURLEncoding`: the value of an alphabet
character, `none` for every other character. -/
def decodeMap (c : Char) : Option Nat :=
  if 'A' ≤ c ∧ c ≤ 'Z' then some (c.toNat - 65)
  else if 'a' ≤ c ∧ c ≤ 'z' then some (c.toNat - 97 + 26)
  else if '0' ≤ c ∧ c ≤ '9' then some (c.toNat - 48 + 52)
  else if c = '-' then some 62
  else if c = '_' then some 63
  else none

/-- The 24-bit value `dbuf[0]<<18 | dbuf[1]<<12 | dbuf[2]<<6 | dbuf[3]` of a
quantum of four 6-bit values. -/
def quantumValue (a b c d : Nat) : Nat :=
  a * 262144 + b * 4096 + c * 64 + d

/-- Byte `i` (0 is the most significant) of a 24-bit value. -/
def quantumByte (val : Nat) (i : Nat) : Byte :=
  Fin.ofNat (val / 256 ^ (2 - i))

/-- The loop of `Encoding.Decode` with `decodeQuantum` for an encoding without
padding in non-strict mode.  `si` is the byte offset of the next input
character and `dbuf` holds the 6-bit values of the current quantum read so
far.  Line feeds and carriage returns are skipped; any other character
outside the alphabet is `CorruptInputError(si)`; an input that ends one
character into a quantum is `CorruptInputError(len(src) - 1)`; a final
quantum of two or three characters yields one or two bytes. -/
def decodeLoop : List Char → Nat → List Nat → Except GoError (List Byte)
  | [], si, dbuf =>
    match dbuf with
    | [] => .ok []
    | [_] => .error (corruptInput (si - 1))
    | [a, b] => .ok [quantumByte (quantumValue a b 0 0) 0]
    | a :: b :: c :: _ =>
      .ok [quantumByte (quantumValue a b c 0) 0, quantumByte (quantumValue a b c 0) 1]
  | ch :: rest, si, dbuf =>
    match decodeMap ch with
    | some v =>
      match dbuf with
      | [a, b, c] =>
        match decodeLoop rest (si + ch.utf8Size) [] with
        | .error err => .error err
        | .ok out =>
          .ok (quantumByte (quantumValue a b c v) 0 :: quantumByte (quantumValue a b c v) 1
            :: quantumByte (quantumValue a b c v) 2 :: out)
      | _ => decodeLoop rest (si + ch.utf8Size) (dbuf ++ [v])
    | none =>
      if ch = '\n' ∨ ch = '\r' then decodeLoop rest (si + ch.utf8Size) dbuf
      else .error (corruptInput si)

/-- Go `base64.RawURLEncoding.DecodeString(s)`. -/
def RawURLDecodeString (s : String) : Except GoError (List Byte) :=
  decodeLoop s.data 0 []

/-- Go `big.NewInt(0).SetBytes(buf)`: the big-endian unsigned value of `buf`. -/
def SetBytes (buf : List Byte) : Nat :=
  buf.foldl (fun acc b => acc * 256 + b.val) 0

/-- Go `(*big.Int).Uint64()`: the low 64 bits of the absolute value. -/
def Uint64 (x : Nat) : Nat :=
  x % 2 ^ 64

/-- Go `math.MaxInt` on a 64-bit platform. -/
def MaxInt : Nat := 2 ^ 63 - 1


/-- Go `int(exp)` for a `uint64` value on a 64-bit platform. -/
def intOfUint64 (exp : Nat) : Int :=
  if exp < 2 ^ 63 then (exp : Int) else (exp : Int) - 2 ^ 64

/-- Go `fmt.Sprintf(format, args...)` for formats whose only verb is `%s` and
string arguments.  A verb without an argument prints `%!s(MISSING)`. -/
def sprintfChars : List Char → List String → List Char
  | '%' :: 's' :: fmt, a :: args => a.data ++ sprintfChars fmt args
  | '%' :: 's' :: fmt, [] => "%!s(MISSING)".data ++ sprintfChars fmt []
  | c :: fmt, args => c :: sprintfChars fmt args
  | [], _ => []

/-- Go `fmt.Sprintf` on strings, see `sprintfChars`. -/
def Sprintf (format : String) (args : List String) : String :=
  ⟨sprintfChars format.data args⟩

/-! ## Constants (`lambda_main.go`, `iot_defs.go`, `jwks.go`) -/

def dstsIssuerName : String := "HP Device Token Service"
def schedulerAppID : String := "bebc5cbf-acc0-431f-8c4e-c582dc2489e2"
def headerAuthorization : String := "Authorization"
def bearerTokenPrefix : String := "Bearer "
def paramDeviceToken : String := "device_token"
def paramClientId : String := "client_id"
def TokenTypeDeviceAccessToken : String := "device"
def TokenTypeAppAccessToken : String := "app"
def defaultRefreshAfterSeconds : Nat := 3600
def defaultDisconnectAfterSeconds : Nat := 3600
def protocolMqtt : String := "mqtt"
def protocolHttp : String := "http"
def ktyRSA : String := "RSA"

/-! ## Data model -/

/-- Go `rsa.PublicKey`. -/
structure RSAPublicKey where
  N : Nat
  E : Int
  deriving DecidableEq, Repr

/-- Go `jsonWebKey` (`jwks.go`).  `KeyType` is the Go field `Type` (`kty`). -/
structure jsonWebKey where
  Curve : String
  Exponent : String
  K : String
  ID : String
  Modulus : String
  KeyType : String
  Use : String
  X : String
  Y : String
  deriving DecidableEq, Repr

/-- Go `rawJWKS`: `Keys []*jsonWebKey`; `none` is a nil pointer (a JSON `null`
element of the `keys` array). -/
structure rawJWKS where
  Keys : List (Option jsonWebKey)
  deriving DecidableEq, Repr

/-- Go `signingKeyTable map[string]*rsa.PublicKey`, by content. -/
abbrev KeyTable := String → Option RSAPublicKey

/-- The empty table, the value of `make(map[string]*rsa.PublicKey, n)`. -/
def emptyTable : KeyTable := fun _ => none

/-- The assignment `table[kid] = key`. -/
def KeyTable.set (table : KeyTable) (kid : String) (key : RSAPublicKey) : KeyTable :=
  fun k => if k = kid then some key else table k

/-- The process-wide variables, and the number of `getKeysFromServer` calls
made so far (each call is one fetch attempt at the trust source). -/
structure State where
  signingKeyTable : KeyTable
  dstsJwksUrl : String
  fetchAttempts : Nat

/-- Go `jwt.RegisteredClaims` embedded in `DstsTokenClaims`, and the three
private claims.  The time claims are not read by the program. -/
structure DstsTokenClaims where
  Issuer : String
  Subject : String
  Audience : List String
  ExpiresAt : Option Int
  NotBefore : Option Int
  IssuedAt : Option Int
  ID : String
  TokenType : String
  TenantID : String
  ManagementService : String
  deriving DecidableEq, Repr

/-- A decoded JSON value held in an `interface{}`, as far as the program
distinguishes them: JSON `null` is the nil interface. -/
inductive HeaderValue where
  | null
  | str (s : String)
  | other
  deriving DecidableEq, Repr

/-- Go `jwt.Token`: the header map, the claims and the `Valid` flag. -/
structure Token where
  Header : List (String × HeaderValue)
  Claims : DstsTokenClaims
  Valid : Bool
  deriving DecidableEq, Repr

/-- Go `url.Values`, a `map[string][]string`. -/
abbrev Values := List (String × List String)

/-- What one fetch attempt at the trust source ends in. -/
inductive HttpOutcome where
  /-- The call `http.NewRequestWithContext` failed. -/
  | requestError (err : GoError)
  /-- The call `http.DefaultClient.Do` failed: transport error, or the 3 s timeout. -/
  | transportError (err : GoError)
  /-- A response arrived: its status code, and what `io.ReadAll(resp.Body)`
  returns (the bytes read and the read error, if any). -/
  | response (statusCode : Nat) (body : List Byte) (readErr : Option GoError)
  deriving DecidableEq, Repr

/-- Library code outside the repository. -/
structure Env where
  /-- The outcome of fetch attempt number `n` at `url`. -/
  httpGet : String → Nat → HttpOutcome
  /-- Go `json.Unmarshal(data, &rawKS)` on a non-empty input. -/
  decodeJWKS : List Byte → Except GoError rawJWKS
  /-- The jwt `Parser.ParseUnverified`: header and claims of a token string. -/
  parseUnverified : String → Except GoError Token
  /-- The jwt checks `token.Claims.Valid()` and `token.Method.Verify(...)` with
  the key the key function returned: `none` when both pass. -/
  verify : String → Token → RSAPublicKey → Option GoError
  /-- Go `url.ParseQuery`. -/
  parseQuery : String → Except GoError Values

/-- Go `events.IoTCoreHTTPContext`; `Headers = none` is the nil map. -/
structure IoTCoreHTTPContext where
  Headers : Option (List (String × String))
  QueryString : String
  deriving DecidableEq, Repr

/-- Go `events.IoTCoreMQTTContext`. -/
structure IoTCoreMQTTContext where
  ClientID : String
  Password : List Byte
  Username : String
  deriving DecidableEq, Repr

/-- Go `events.IoTCoreTLSContext`. -/
structure IoTCoreTLSContext where
  ServerName : String
  deriving DecidableEq, Repr

/-- Go `events.IoTCoreProtocolData`. -/
structure IoTCoreProtocolData where
  TLS : Option IoTCoreTLSContext
  HTTP : Option IoTCoreHTTPContext
  MQTT : Option IoTCoreMQTTContext
  deriving DecidableEq, Repr

/-- Go `events.IoTCoreConnectionMetadata`. -/
structure IoTCoreConnectionMetadata where
  ID : String
  deriving DecidableEq, Repr

/-- Go `events.IoTCoreCustomAuthorizerRequest`. -/
structure IoTCoreCustomAuthorizerRequest where
  Token : String
  SignatureVerified : Bool
  Protocols : List String
  ProtocolData : Option IoTCoreProtocolData
  ConnectionMetadata : Option IoTCoreConnectionMetadata
  deriving DecidableEq, Repr

/-- Go `events.IAMPolicyStatement`. -/
structure IAMPolicyStatement where
  Action : List String
  Effect : String
  Resource : List String
  deriving DecidableEq, Repr

/-- Go `events.IAMPolicyDocument`. -/
structure IAMPolicyDocument where
  Version : String
  Statement : List IAMPolicyStatement
  deriving DecidableEq, Repr

/-- Go `events.IoTCoreCustomAuthorizerResponse`; `PolicyDocuments = none` is
the nil slice. -/
structure IoTCoreCustomAuthorizerResponse where
  IsAuthenticated : Bool
  PrincipalID : String
  DisconnectAfterInSeconds : Nat
  RefreshAfterInSeconds : Nat
  PolicyDocuments : Option (List IAMPolicyDocument)
  deriving DecidableEq, Repr

/-- Go `lambdacontext.LambdaContext`, the field the handler reads. -/
structure LambdaContext where
  InvokedFunctionArn : String
  deriving DecidableEq, Repr

/-! ## Key store (`jwks.go`) -/

/-- Go `base64urlTrailingPadding`: trailing padding removed, then decoded. -/
def base64urlTrailingPadding (s : String) : Except GoError (List Byte) :=
  RawURLDecodeString (TrimRightEq s)

/-- Go `parseRSASigningKey`. -/
def parseRSASigningKey (j : jsonWebKey) : Except GoError RSAPublicKey :=
  if j.Exponent = "" ∨ j.Modulus = "" then .error ErrMissingAssets
  else
    match base64urlTrailingPadding j.Exponent with
    | .error err => .error err
    | .ok exponent =>
      match base64urlTrailingPadding j.Modulus with
      | .error err => .error err
      | .ok modulus =>
        let exp := Uint64 (SetBytes exponent)
        if exp > MaxInt then .error ErrOverflowDetected
        else .ok { E := intOfUint64 exp, N := SetBytes modulus }

/-- Go `getKeysFromServer`.  The function has the named results
`(keys []byte, err error)`, and `req, err := ...` and `resp, err := ...`
assign that same `err`; in the branch for a status other than 200 the
statement `return nil, err` therefore returns the `err` left by the
successful `Do`, which is nil. -/
def getKeysFromServer (E : Env) (keysUrl : String) (st : State) :
    (List Byte × Option GoError) × State :=
  let st1 := { st with fetchAttempts := st.fetchAttempts + 1 }
  match E.httpGet keysUrl st.fetchAttempts with
  | .requestError err => (([], some err), st1)
  | .transportError err => (([], some err), st1)
  | .response statusCode body readErr =>
    if statusCode ≠ 200 then (([], none), st1)
    else ((body, readErr), st1)

/-- Go `json.Unmarshal(jwksBytes, &rawKS)`: an empty input is the syntax
error "unexpected end of JSON input"; other inputs go to the decoder. -/
def jsonUnmarshal (E : Env) (data : List Byte) : Except GoError rawJWKS :=
  if data = [] then .error jsonUnexpectedEnd else E.decodeJWKS data

/-- The loop `for _, key := range rawKS.Keys` of `getJWKSSigningKey`, run on
the table the keys are written to.  Reading `key.Type` of a nil entry
panics; an RSA entry that does not parse ends the loop with its error; other
key types are skipped. -/
def storeKeys : List (Option jsonWebKey) → KeyTable → Outcome (Option GoError × KeyTable)
  | [], table => returned (none, table)
  | none :: _, _ => panicked
  | some key :: rest, table =>
    if key.KeyType = ktyRSA then
      match parseRSASigningKey key with
      | .error err => returned (some err, table)
      | .ok publicKey => storeKeys rest (table.set key.ID publicKey)
    else storeKeys rest table

/-- Go `getJWKSSigningKey`. -/
def getJWKSSigningKey (E : Env) (url : String) (st : State) :
    Outcome (Option GoError × State) :=
  match getKeysFromServer E url st with
  | ((_, some err), st1) => returned (some err, st1)
  | ((jwksBytes, none), st1) =>
    match jsonUnmarshal E jwksBytes with
    | .error err => returned (some err, st1)
    | .ok rawKS =>
      match storeKeys rawKS.Keys emptyTable with
      | panicked => panicked
      | returned (err, table) => returned (err, { st1 with signingKeyTable := table })

/-- Go `getSigningKey`, the key function handed to the JWT parser. -/
def getSigningKey (E : Env) (token : Token) (st : State) :
    Outcome (Except GoError RSAPublicKey × State) :=
  match token.Header.lookup "kid" with
  | some (.str kid) =>
    match st.signingKeyTable kid with
    | some pubKey => returned (.ok pubKey, st)
    | none =>
      match getJWKSSigningKey E st.dstsJwksUrl st with
      | panicked => panicked
      | returned (some err, st1) => returned (.error err, st1)
      | returned (none, st1) =>
        match st1.signingKeyTable kid with
        | some pubKey => returned (.ok pubKey, st1)
        | none => returned (.error (noPublicKey kid), st1)
  | _ => returned (.error ErrInvalidTokenHeaderKid, st)

/-! ## Token validation (`lambda_main.go`) -/

/-- The jwt `Parser.ParseWithClaims` (library code): decode the token, call the
key function once, then check the claims and the signature with the key it
returned; an error of the key function is wrapped, and `Valid` is set on
success. -/
def ParseWithClaims (E : Env) (tokenString : String)
    (keyFunc : Token → State → Outcome (Except GoError RSAPublicKey × State))
    (st : State) : Outcome (Except GoError Token × State) :=
  match E.parseUnverified tokenString with
  | .error err => returned (.error err, st)
  | .ok token =>
    match keyFunc token st with
    | panicked => panicked
    | returned (.error err, st1) => returned (.error (jwtUnverifiable err), st1)
    | returned (.ok key, st1) =>
      match E.verify tokenString token key with
      | some err => returned (.error err, st1)
      | none => returned (.ok { token with Valid := true }, st1)

/-- The test `token.Header[name] == nil`. -/
def headerIsNil (token : Token) (name : String) : Bool :=
  match token.Header.lookup name with
  | none => true
  | some .null => true
  | some _ => false

/-- Go `validateDstsAccessToken`. -/
def validateDstsAccessToken (E : Env) (accessToken : String) (st : State) :
    Outcome (Except GoError DstsTokenClaims × State) :=
  match ParseWithClaims E accessToken (getSigningKey E) st with
  | panicked => panicked
  | returned (.error err, st1) => returned (.error err, st1)
  | returned (.ok token, st1) =>
    if !token.Valid then returned (.error ErrInvalidToken, st1)
    else if headerIsNil token "alg" then returned (.error ErrInvalidTokenHeaderSigningAlg, st1)
    else if !HasPrefix token.Claims.Issuer dstsIssuerName then
      returned (.error ErrInvalidIssuerClaim, st1)
    else returned (.ok token.Claims, st1)

/-! ## Policy documents (`device_policy.go`, `scheduler_policy.go`) -/

def clientResourceFormat : String := "arn:aws:iot:%s:%s:client/%s"
def deviceTasksTopicSubscribeFormat : String := "arn:aws:iot:%s:%s:topicfilter/v1/%s/tasks"
def deviceTasksTopicReceiveFormat : String := "arn:aws:iot:%s:%s:topic/v1/%s/tasks"
def deviceServiceBroadcastTopicSubscribeFormat : String :=
  "arn:aws:iot:%s:%s:topicfilter/v1/@devices/+"
def deviceServiceBroadcastTopicReceiveFormat : String := "arn:aws:iot:%s:%s:topic/v1/@devices/+"
def cloudTaskResponsesTopic : String := "arn:aws:iot:%s:%s:topic/v1/@cloud/task_responses"
def cloudServiceMessageTopic : String := "arn:aws:iot:%s:%s:topic/v1/@cloud"
def sharedSubscriptionFormat : String := "$share/krypton/"
def taskResponsesTopicSubscribeFormat : String :=
  "arn:aws:iot:%s:%s:topicfilter/%sv1/@cloud/task_responses"
def taskResponsesTopicReceiveFormat : String := "arn:aws:iot:%s:%s:topic/%sv1/@cloud/task_responses"
def serviceMessageTopicSubscribeFormat : String := "arn:aws:iot:%s:%s:topicfilter/%sv1/@cloud"
def serviceMessageTopicReceiveFormat : String := "arn:aws:iot:%s:%s:topic/%sv1/@cloud"
def deviceTasksTopic : String := "arn:aws:iot:%s:%s:topic/v1/*/tasks"
def deviceBroadcastMessageTopic : String := "arn:aws:iot:%s:%s:topic/v1/@devices/*"
def connectAction : List String := ["iot:Connect"]
def publishAction : List String := ["iot:Publish"]
def receiveAction : List String := ["iot:Receive"]
def subscribeAction : List String := ["iot:Subscribe"]

/-- Go `createIotPolicyDocumentForDevice`. -/
def createIotPolicyDocumentForDevice (awsRegion awsAccount deviceID : String) :
    List IAMPolicyDocument :=
  [{ Version := "2012-10-17"
     Statement :=
      [ { Action := connectAction, Effect := "Allow"
          Resource := [Sprintf clientResourceFormat [awsRegion, awsAccount, deviceID]] },
        { Action := subscribeAction, Effect := "Allow"
          Resource :=
            [ Sprintf deviceTasksTopicSubscribeFormat [awsRegion, awsAccount, deviceID],
              Sprintf deviceServiceBroadcastTopicSubscribeFormat [awsRegion, awsAccount] ] },
        { Action := receiveAction, Effect := "Allow"
          Resource :=
            [ Sprintf deviceTasksTopicReceiveFormat [awsRegion, awsAccount, deviceID],
              Sprintf deviceServiceBroadcastTopicReceiveFormat [awsRegion, awsAccount] ] },
        { Action := publishAction, Effect := "Allow"
          Resource :=
            [ Sprintf cloudTaskResponsesTopic [awsRegion, awsAccount],
              Sprintf cloudServiceMessageTopic [awsRegion, awsAccount] ] } ] }]

/-- Go `createIotPolicyDocumentForScheduler`. -/
def createIotPolicyDocumentForScheduler (awsRegion awsAccount clientID : String) :
    List IAMPolicyDocument :=
  [{ Version := "2012-10-17"
     Statement :=
      [ { Action := connectAction, Effect := "Allow"
          Resource := [Sprintf clientResourceFormat [awsRegion, awsAccount, clientID]] },
        { Action := subscribeAction, Effect := "Allow"
          Resource :=
            [ Sprintf taskResponsesTopicSubscribeFormat [awsRegion, awsAccount, ""],
              Sprintf taskResponsesTopicSubscribeFormat
                [awsRegion, awsAccount, sharedSubscriptionFormat],
              Sprintf serviceMessageTopicSubscribeFormat [awsRegion, awsAccount, ""],
              Sprintf serviceMessageTopicSubscribeFormat
                [awsRegion, awsAccount, sharedSubscriptionFormat] ] },
        { Action := receiveAction, Effect := "Allow"
          Resource :=
            [ Sprintf taskResponsesTopicReceiveFormat [awsRegion, awsAccount, ""],
              Sprintf taskResponsesTopicReceiveFormat
                [awsRegion, awsAccount, sharedSubscriptionFormat],
              Sprintf serviceMessageTopicReceiveFormat [awsRegion, awsAccount, ""],
              Sprintf serviceMessageTopicReceiveFormat
                [awsRegion, awsAccount, sharedSubscriptionFormat] ] },
        { Action := publishAction, Effect := "Allow"
          Resource :=
            [ Sprintf deviceTasksTopic [awsRegion, awsAccount],
              Sprintf deviceBroadcastMessageTopic [awsRegion, awsAccount] ] } ] }]

/-! ## The handler (`lambda_main.go`, `request_utils.go`) -/

/-- Go `containsProtocol`. -/
def containsProtocol : List String → String → Bool
  | [], _ => false
  | protocol :: rest, matchProtocol =>
    if protocol = matchProtocol then true else containsProtocol rest matchProtocol

/-- Go `getQueryParameter`: `value[0]` panics when the key maps to an empty
slice. -/
def getQueryParameter (values : Values) (parameterName : String) : Outcome String :=
  match values.lookup parameterName with
  | none => returned ""
  | some [] => panicked
  | some (first :: _) => returned first

/-- Go `successDeviceAuthResponse`. -/
def successDeviceAuthResponse (awsRegion awsAccount deviceID : String) :
    IoTCoreCustomAuthorizerResponse :=
  { IsAuthenticated := true
    PrincipalID := ReplaceHyphens deviceID
    PolicyDocuments := some (createIotPolicyDocumentForDevice awsRegion awsAccount deviceID)
    RefreshAfterInSeconds := defaultRefreshAfterSeconds
    DisconnectAfterInSeconds := defaultDisconnectAfterSeconds }

/-- Go `successAppAuthResponse`. -/
def successAppAuthResponse (awsRegion awsAccount clientID : String) :
    IoTCoreCustomAuthorizerResponse :=
  { IsAuthenticated := true
    PrincipalID := ReplaceHyphens clientID
    PolicyDocuments := some (createIotPolicyDocumentForScheduler awsRegion awsAccount clientID)
    RefreshAfterInSeconds := defaultRefreshAfterSeconds
    DisconnectAfterInSeconds := defaultDisconnectAfterSeconds }

/-- Go `failedAuthResponse`. -/
def failedAuthResponse : IoTCoreCustomAuthorizerResponse :=
  { IsAuthenticated := false
    PrincipalID := ""
    PolicyDocuments := none
    RefreshAfterInSeconds := 300
    DisconnectAfterInSeconds := 300 }

/-- The composite literal `events.IoTCoreCustomAuthorizerResponse{}`: every
field has its zero value. -/
def emptyResponse : IoTCoreCustomAuthorizerResponse :=
  { IsAuthenticated := false
    PrincipalID := ""
    PolicyDocuments := none
    RefreshAfterInSeconds := 0
    DisconnectAfterInSeconds := 0 }

/-- Lines 78-80 of `lambda_main.go`: the region and the account are
`result[3]` and `result[4]` of the ARN split at the colons; an index out of
range panics. -/
def arnRegionAccount (invokedFunctionArn : String) : Outcome (String × String) :=
  let result := Split invokedFunctionArn ':'
  match result[3]? with
  | none => panicked
  | some awsRegion =>
    match result[4]? with
    | none => panicked
    | some awsAccount => returned (awsRegion, awsAccount)

/-- The error result of `json.MarshalIndent(event, "", "  ")`.  The event type
is made of strings, booleans, byte slices, string maps and pointers to
records of these, none of which the encoder rejects: the error is nil. -/
def marshalIndentError (_event : IoTCoreCustomAuthorizerRequest) : Option GoError :=
  none

/-- Lines 99-124: the credential and client identity taken from the HTTP
data.  The result is an early exit of the handler (a response and an error),
or the values of `deviceAccessToken` and `clientID` after the block. -/
def httpCredentials (E : Env) (event : IoTCoreCustomAuthorizerRequest) :
    Outcome (Except (IoTCoreCustomAuthorizerResponse × GoError) (String × String)) :=
  if containsProtocol event.Protocols protocolHttp then
    match event.ProtocolData with
    | none => returned (.ok ("", ""))
    | some protocolData =>
      match protocolData.HTTP with
      | none => returned (.ok ("", ""))
      | some http =>
        match http.Headers with
        | none => returned (.ok ("", ""))
        | some headers =>
          match headers.lookup headerAuthorization with
          | none => returned (.ok ("", ""))
          | some authzHeader =>
            if !HasPrefix authzHeader bearerTokenPrefix then
              returned (.error (emptyResponse, ErrUnauthorized))
            else if http.QueryString ≠ "" then
              match E.parseQuery http.QueryString with
              | .error _ => returned (.error (emptyResponse, ErrBadRequest))
              | .ok values =>
                match getQueryParameter values paramClientId with
                | panicked => panicked
                | returned clientID =>
                  returned (.ok (TrimPrefix authzHeader bearerTokenPrefix, clientID))
            else returned (.ok (TrimPrefix authzHeader bearerTokenPrefix, ""))
  else returned (.ok ("", ""))

/-- Lines 126-146: the credential and client identity taken from the MQTT
data when the HTTP block left `deviceAccessToken` empty. -/
def mqttCredentials (E : Env) (event : IoTCoreCustomAuthorizerRequest)
    (deviceAccessToken clientID : String) :
    Outcome (Except (IoTCoreCustomAuthorizerResponse × GoError) (String × String)) :=
  if deviceAccessToken = "" then
    if containsProtocol event.Protocols protocolMqtt then
      match event.ProtocolData with
      | none => returned (.ok (deviceAccessToken, clientID))
      | some protocolData =>
        match protocolData.MQTT with
        | none => returned (.ok (deviceAccessToken, clientID))
        | some mqtt =>
          if mqtt.Username = "" then returned (.error (emptyResponse, ErrBadRequest))
          else
            match E.parseQuery mqtt.Username with
            | .error _ => returned (.error (emptyResponse, ErrBadRequest))
            | .ok values =>
              match getQueryParameter values paramDeviceToken with
              | panicked => panicked
              | returned token => returned (.ok (token, mqtt.ClientID))
    else returned (.ok (deviceAccessToken, clientID))
  else returned (.ok (deviceAccessToken, clientID))

/-- Lines 99-146: the HTTP block followed by the MQTT block. -/
def credentials (E : Env) (event : IoTCoreCustomAuthorizerRequest) :
    Outcome (Except (IoTCoreCustomAuthorizerResponse × GoError) (String × String)) :=
  match httpCredentials E event with
  | panicked => panicked
  | returned (.error exit) => returned (.error exit)
  | returned (.ok (deviceAccessToken, clientID)) =>
    mqttCredentials E event deviceAccessToken clientID

/-- Lines 163-195: the `switch claims.TokenType` of the handler. -/
def principalDecision (awsRegion awsAccount : String) (claims : DstsTokenClaims)
    (clientID : String) : IoTCoreCustomAuthorizerResponse × Option GoError :=
  if claims.TokenType = TokenTypeDeviceAccessToken then
    if claims.Subject ≠ clientID then (failedAuthResponse, some ErrUnauthorized)
    else (successDeviceAuthResponse awsRegion awsAccount claims.Subject, none)
  else if claims.TokenType = TokenTypeAppAccessToken then
    if claims.Subject ≠ schedulerAppID then (failedAuthResponse, some ErrUnauthorized)
    else if !HasPrefix clientID claims.Subject then (failedAuthResponse, some ErrUnauthorized)
    else (successAppAuthResponse awsRegion awsAccount clientID, none)
  else (failedAuthResponse, some ErrUnauthorized)

/-- Go `IotDeviceAuthenticationHandler`.  `ctx` is the result of
`lambdacontext.FromContext(ctx)`: `none` when the context carries no lambda
context. -/
def IotDeviceAuthenticationHandler (E : Env) (ctx : Option LambdaContext)
    (event : IoTCoreCustomAuthorizerRequest) (st : State) :
    Outcome ((IoTCoreCustomAuthorizerResponse × Option GoError) × State) :=
  match ctx with
  | none => returned ((failedAuthResponse, some ErrNoLambdaContext), st)
  | some lambdaCtx =>
    match arnRegionAccount lambdaCtx.InvokedFunctionArn with
    | panicked => panicked
    | returned (awsRegion, awsAccount) =>
      match marshalIndentError event with
      | some err => returned ((failedAuthResponse, some err), st)
      | none =>
        match credentials E event with
        | panicked => panicked
        | returned (.error (response, err)) => returned ((response, some err), st)
        | returned (.ok (deviceAccessToken, clientID)) =>
          if deviceAccessToken = "" then returned ((emptyResponse, some ErrUnauthorized), st)
          else
            match validateDstsAccessToken E deviceAccessToken st with
            | panicked => panicked
            | returned (.error _, st1) =>
              returned ((failedAuthResponse, some ErrUnauthorized), st1)
            | returned (.ok claims, st1) =>
              returned (principalDecision awsRegion awsAccount claims clientID, st1)

/-! ## Concrete inputs used by the examples below -/

/-- The ARN of the example in the source comment. -/
def exampleArn : String :=
  "arn:aws:lambda:us-west-2:719809574944:function:krypton-iot-authorizer-lambda"

/-- A lambda context with `exampleArn`. -/
def exampleCtx : Option LambdaContext := some { InvokedFunctionArn := exampleArn }

/-- A JWKS entry with the given key type, key id, modulus and exponent. -/
def jwk (kty kid n e : String) : jsonWebKey :=
  { Curve := "", Exponent := e, K := "", ID := kid, Modulus := n, KeyType := kty,
    Use := "sig", X := "", Y := "" }

/-- Claims with the given issuer, subject and token type. -/
def claimsOf (iss sub typ : String) : DstsTokenClaims :=
  { Issuer := iss, Subject := sub, Audience := [], ExpiresAt := none, NotBefore := none,
    IssuedAt := none, ID := "", TokenType := typ, TenantID := "", ManagementService := "" }

/-- An unverified token with key id `k1`, algorithm `RS256` and the given claims. -/
def tokenOf (claims : DstsTokenClaims) : Token :=
  { Header := [("alg", .str "RS256"), ("kid", .str "k1")], Claims := claims, Valid := false }

/-- A library environment for examples.  The trust source answers every
request with `fetch`; the JWKS decoder yields `doc` on every non-empty body;
the token strings `dev`, `app` and `odd` decode to tokens for device `d1`,
for the scheduler application and for an unknown token type, and every
signature check passes; a query string is taken as one `key=value` pair, the
key being `device_token` when the string starts with `device_token=` and
`client_id` otherwise, and a query string containing `;` is rejected. -/
def exampleEnv (fetch : HttpOutcome) (doc : rawJWKS) : Env :=
  { httpGet := fun _ _ => fetch
    decodeJWKS := fun _ => .ok doc
    parseUnverified := fun s =>
      if s = "dev" then .ok (tokenOf (claimsOf "HP Device Token Service" "d1" "device"))
      else if s = "app" then .ok (tokenOf (claimsOf "HP Device Token Service" schedulerAppID "app"))
      else if s = "odd" then .ok (tokenOf (claimsOf "HP Device Token Service" "d1" "Device"))
      else if s = "iss" then .ok (tokenOf (claimsOf "Another Service" "d1" "device"))
      else .error (library "token contains an invalid number of segments")
    verify := fun _ _ _ => none
    parseQuery := fun q =>
      if q.data.contains ';' then .error (library "invalid semicolon separator in query")
      else if HasPrefix q "device_token=" then
        .ok [(paramDeviceToken, [TrimPrefix q "device_token="])]
      else .ok [(paramClientId, [TrimPrefix q "client_id="])] }

/-- A state whose key table holds the key `k1`. -/
def stateWithK1 : State :=
  { signingKeyTable := emptyTable.set "k1" { N := 187, E := 65537 }
    dstsJwksUrl := "https://dsts.example/jwks"
    fetchAttempts := 0 }

/-- A state with an empty key table. -/
def stateEmpty : State :=
  { signingKeyTable := emptyTable
    dstsJwksUrl := "https://dsts.example/jwks"
    fetchAttempts := 0 }

/-- An event over MQTT with the given user name and client id. -/
def mqttEvent (username clientID : String) : IoTCoreCustomAuthorizerRequest :=
  { Token := "", SignatureVerified := false, Protocols := ["tls", "mqtt"]
    ProtocolData := some
      { TLS := none, HTTP := none
        MQTT := some { ClientID := clientID, Password := [], Username := username } }
    ConnectionMetadata := none }

/-- An event over HTTP with the given `Authorization` header and query string. -/
def httpEvent (authorization queryString : String) : IoTCoreCustomAuthorizerRequest :=
  { Token := "", SignatureVerified := false, Protocols := ["tls", "http"]
    ProtocolData := some
      { TLS := none, MQTT := none
        HTTP := some { Headers := some [("Authorization", authorization)]
                       QueryString := queryString } }
    ConnectionMetadata := none }

/-- An event that lists MQTT but carries no protocol data, hence no credential. -/
def bareEvent : IoTCoreCustomAuthorizerRequest :=
  { Token := "", SignatureVerified := false, Protocols := ["mqtt"], ProtocolData := none,
    ConnectionMetadata := none }

/-- An event with HTTP data (an `Authorization` header holding the bare
bearer prefix and a query string naming the client id `other`) and MQTT data
(the given user name and client id). -/
def mixedEvent (username clientID : String) : IoTCoreCustomAuthorizerRequest :=
  { Token := "", SignatureVerified := false, Protocols := ["http", "mqtt"]
    ProtocolData := some
      { TLS := none
        HTTP := some { Headers := some [("Authorization", "Bearer ")]
                       QueryString := "client_id=other" }
        MQTT := some { ClientID := clientID, Password := [], Username := username } }
    ConnectionMetadata := none }

/-! ## Encoding of key material (the inverse of the decoding above) -/

/-- The alphabet of `base64.RawURLEncoding`. -/
def encodeURL : List Char :=
  "ABCDEFGHIJKLMNOPQRSTUVWXYZabcdefghijklmnopqrstuvwxyz0123456789-_".data

/-- The character `enc.encode[v & 0x3F]`. -/
def encodeChar (v : Nat) : Char :=
  encodeURL.getD (v % 64) 'A'

/-- Go `Encoding.Encode` for an encoding without padding: three bytes give
the four characters of the 24-bit value `src[0]<<16 | src[1]<<8 | src[2]`,
a rest of one or two bytes gives two or three characters. -/
def encodeChars : List Byte → List Char
  | [] => []
  | [x] =>
    [encodeChar (x.val * 65536 / 262144), encodeChar (x.val * 65536 / 4096)]
  | [x, y] =>
    [encodeChar ((x.val * 65536 + y.val * 256) / 262144),
      encodeChar ((x.val * 65536 + y.val * 256) / 4096),
      encodeChar ((x.val * 65536 + y.val * 256) / 64)]
  | x :: y :: z :: rest =>
    encodeChar ((x.val * 65536 + y.val * 256 + z.val) / 262144)
      :: encodeChar ((x.val * 65536 + y.val * 256 + z.val) / 4096)
      :: encodeChar ((x.val * 65536 + y.val * 256 + z.val) / 64)
      :: encodeChar (x.val * 65536 + y.val * 256 + z.val)
      :: encodeChars rest

/-- Go `base64.RawURLEncoding.EncodeToString(src)`. -/
def RawURLEncodeToString (src : List Byte) : String :=
  ⟨encodeChars src⟩

/-- The string of `k` padding characters `=`. -/
def padding (k : Nat) : String :=
  ⟨List.replicate k '='⟩

/-- The big-endian bytes of `n` without a leading zero byte; `fuel` bounds
the number of bytes. -/
def bytesOfNatAux : Nat → Nat → List Byte
  | 0, _ => []
  | fuel + 1, n => if n = 0 then [] else bytesOfNatAux fuel (n / 256) ++ [Fin.ofNat n]

/-- Go `(*big.Int).Bytes()` of a non-negative integer: its big-endian bytes
without a leading zero byte (no byte at all for 0). -/
def bytesOfNat (n : Nat) : List Byte :=
  bytesOfNatAux n n

/-! ## Reading a policy -/

/-- The wildcard characters of MQTT topic filters and of IoT policy resources. -/
def isWildcard (c : Char) : Bool :=
  c = '*' || c = '+' || c = '#'

/-- The wildcard characters of a string, in order of occurrence. -/
def wildcards (s : String) : List Char :=
  s.data.filter isWildcard

/-- The resources of every statement of every document, in order. -/
def policyResources (docs : List IAMPolicyDocument) : List String :=
  docs.flatMap (fun doc => doc.Statement.flatMap (fun statement => statement.Resource))

/-- The resources of the statements with the given action list, in order. -/
def resourcesFor (action : List String) (docs : List IAMPolicyDocument) : List String :=
  docs.flatMap (fun doc =>
    (doc.Statement.filter (fun statement => statement.Action = action)).flatMap
      (fun statement => statement.Resource))

/-- The format of each resource of `createIotPolicyDocumentForDevice`, in the
order of `policyResources`. -/
def deviceTemplates : List String :=
  [ clientResourceFormat,
    deviceTasksTopicSubscribeFormat, deviceServiceBroadcastTopicSubscribeFormat,
    deviceTasksTopicReceiveFormat, deviceServiceBroadcastTopicReceiveFormat,
    cloudTaskResponsesTopic, cloudServiceMessageTopic ]

/-- The format of each resource of `createIotPolicyDocumentForScheduler`, in
the order of `policyResources`. -/
def schedulerTemplates : List String :=
  [ clientResourceFormat,
    taskResponsesTopicSubscribeFormat, taskResponsesTopicSubscribeFormat,
    serviceMessageTopicSubscribeFormat, serviceMessageTopicSubscribeFormat,
    taskResponsesTopicReceiveFormat, taskResponsesTopicReceiveFormat,
    serviceMessageTopicReceiveFormat, serviceMessageTopicReceiveFormat,
    deviceTasksTopic, deviceBroadcastMessageTopic ]

/-! ## Documents without their non-RSA entries -/

/-- The entries of a key list whose key type is not `RSA` removed; nil
entries carry no key type and stay. -/
def removeNonRSA (keys : List (Option jsonWebKey)) : List (Option jsonWebKey) :=
  keys.filter (fun entry =>
    match entry with
    | none => true
    | some key => key.KeyType = ktyRSA)

/-- The environment `E` with every decoded JWKS document replaced by the
document without its non-RSA entries. -/
def withoutNonRSA (E : Env) : Env :=
  { E with
    decodeJWKS := fun data =>
      match E.decodeJWKS data with
      | .error err => .error err
      | .ok doc => .ok { Keys := removeNonRSA doc.Keys } }

/-! ## The table a document describes -/

/-- The entry itself when it is an RSA entry with the key id `kid`. -/
def rsaEntryWithID (entry : Option jsonWebKey) (kid : String) : Option jsonWebKey :=
  match entry with
  | some key => if key.KeyType = ktyRSA ∧ key.ID = kid then some key else none
  | none => none

/-- The last RSA entry of a key list that carries the key id `kid`: a later
entry with the same key id takes precedence over an earlier one. -/
def lastRSAEntry : List (Option jsonWebKey) → String → Option jsonWebKey
  | [], _ => none
  | entry :: rest, kid =>
    match lastRSAEntry rest kid with
    | some key => some key
    | none => rsaEntryWithID entry kid

/-- A document with two RSA entries of key id `k1` around an `EC` entry. -/
def twoRSADocument : rawJWKS :=
  { Keys := [some (jwk "RSA" "k1" "uw" "AQAB"), some (jwk "EC" "e1" "" ""),
      some (jwk "RSA" "k1" "AQAB" "AQAB")] }

/-- The state `stateWithK1` with a further cached key `old`. -/
def stateWithOld : State :=
  { stateWithK1 with signingKeyTable := stateWithK1.signingKeyTable.set "old" { N := 35, E := 3 } }

/-- The state after one refresh of `stateWithOld` with `twoRSADocument`. -/
def stateRefreshed : State :=
  { signingKeyTable :=
      (emptyTable.set "k1" { N := 187, E := 65537 }).set "k1" { N := 65537, E := 65537 }
    dstsJwksUrl := "https://dsts.example/jwks"
    fetchAttempts := 1 }

/-! ## Conditions on the library environment -/

/-- The JWKS decoder never yields a nil entry. -/
def NoNilKeys (E : Env) : Prop :=
  ∀ data doc, E.decodeJWKS data = .ok doc → ∀ key ∈ doc.Keys, key ≠ none

/-- The query decoder never maps a key to an empty slice. -/
def NoEmptyValues (E : Env) : Prop :=
  ∀ query values name, E.parseQuery query = .ok values → values.lookup name ≠ some []

/-! ## Auxiliary lemmas -/

theorem hasPrefix_iff (s pre : String) : HasPrefix s pre = true ↔ pre.data <+: s.data := by
  unfold HasPrefix
  exact List.isPrefixOf_iff_prefix

theorem containsProtocol_iff (protocols : List String) (name : String) :
    containsProtocol protocols name = true ↔ name ∈ protocols := by
  induction protocols with
  | nil => simp [containsProtocol]
  | cons p ps ih =>
    by_cases hp : p = name
    · simp [containsProtocol, hp]
    · have hne : ¬ name = p := fun h => hp h.symm
      simp [containsProtocol, hp, hne, ih]

theorem ParseWithClaims_ok_valid (E : Env) (tokenString : String)
    (keyFunc : Token → State → Outcome (Except GoError RSAPublicKey × State))
    (st st1 : State) (token : Token)
    (h : ParseWithClaims E tokenString keyFunc st = returned (.ok token, st1)) :
    token.Valid = true := by
  unfold ParseWithClaims at h
  split at h
  · simp at h
  · split at h
    · simp at h
    · simp at h
    · split at h
      · simp at h
      · simp only [Outcome.returned.injEq, Prod.mk.injEq, Except.ok.injEq] at h
        rw [← h.1]

/-! ## Principal resolution (C1, C2) -/

/-- C1: when the event yields a non-empty credential and the client identity
`c`, validation of the credential succeeds with claims of token type
`device`, and the invocation carries an ARN with a region and an account,
the handler returns the device success response with a nil error if the
subject equals `c`, and the failed response with `ErrUnauthorized` otherwise;
in particular it authenticates if and only if the subject equals `c`. -/
theorem device_token_authenticated_iff_subject_eq_client
    (E : Env) (lambdaCtx : LambdaContext) (event : IoTCoreCustomAuthorizerRequest)
    (st st1 : State) (awsRegion awsAccount token c : String) (claims : DstsTokenClaims)
    (harn : arnRegionAccount lambdaCtx.InvokedFunctionArn = returned (awsRegion, awsAccount))
    (hcred : credentials E event = returned (.ok (token, c)))
    (htoken : token ≠ "")
    (hval : validateDstsAccessToken E token st = returned (.ok claims, st1))
    (htyp : claims.TokenType = "device") :
    ∃ response err,
      IotDeviceAuthenticationHandler E (some lambdaCtx) event st
        = returned ((response, err), st1) ∧
      ((response.IsAuthenticated = true ∧ err = none) ↔ claims.Subject = c) ∧
      (claims.Subject = c →
        response = successDeviceAuthResponse awsRegion awsAccount claims.Subject) ∧
      (claims.Subject ≠ c → response = failedAuthResponse ∧ err = some ErrUnauthorized) := by
  by_cases hsub : claims.Subject = c
  · refine ⟨successDeviceAuthResponse awsRegion awsAccount claims.Subject, none, ?_, ?_, ?_, ?_⟩
    · simp [IotDeviceAuthenticationHandler, harn, marshalIndentError, hcred, htoken, hval,
        principalDecision, htyp, TokenTypeDeviceAccessToken, hsub]
    · simp [successDeviceAuthResponse, hsub]
    · intro _; rfl
    · intro h; exact absurd hsub h
  · refine ⟨failedAuthResponse, some ErrUnauthorized, ?_, ?_, ?_, ?_⟩
    · simp [IotDeviceAuthenticationHandler, harn, marshalIndentError, hcred, htoken, hval,
        principalDecision, htyp, TokenTypeDeviceAccessToken, hsub]
    · simp [failedAuthResponse, hsub]
    · intro h; exact absurd h hsub
    · intro _; exact ⟨rfl, rfl⟩

/-- C1 at a concrete input: a device token for `d1` presented over MQTT with
client id `d1`. -/
theorem device_token_authenticated_iff_subject_eq_client_witness :
    ∃ response err,
      IotDeviceAuthenticationHandler (exampleEnv (.transportError (library "timeout")) ⟨[]⟩)
          exampleCtx (mqttEvent "device_token=dev" "d1") stateWithK1
        = returned ((response, err), stateWithK1) ∧
      ((response.IsAuthenticated = true ∧ err = none) ↔ "d1" = "d1") ∧
      ("d1" = "d1" →
        response = successDeviceAuthResponse "us-west-2" "719809574944" "d1") ∧
      ("d1" ≠ "d1" → response = failedAuthResponse ∧ err = some ErrUnauthorized) :=
  device_token_authenticated_iff_subject_eq_client
    (exampleEnv (.transportError (library "timeout")) ⟨[]⟩) ⟨exampleArn⟩
    (mqttEvent "device_token=dev" "d1") stateWithK1 stateWithK1 "us-west-2" "719809574944"
    "dev" "d1" (claimsOf "HP Device Token Service" "d1" "device")
    (by rfl) (by rfl) (by decide) (by rfl) (by rfl)

/-- C2: when the event yields a non-empty credential and the client identity
`c`, validation succeeds with claims of token type `app`, and the invocation
carries an ARN with a region and an account, the handler returns the
scheduler success response with a nil error if the subject equals
`schedulerAppID` and `c` starts with the subject, and the failed response
with `ErrUnauthorized` otherwise (also when exactly one of the two holds). -/
theorem app_token_authenticated_iff_scheduler_and_client_starts_with_subject
    (E : Env) (lambdaCtx : LambdaContext) (event : IoTCoreCustomAuthorizerRequest)
    (st st1 : State) (awsRegion awsAccount token c : String) (claims : DstsTokenClaims)
    (harn : arnRegionAccount lambdaCtx.InvokedFunctionArn = returned (awsRegion, awsAccount))
    (hcred : credentials E event = returned (.ok (token, c)))
    (htoken : token ≠ "")
    (hval : validateDstsAccessToken E token st = returned (.ok claims, st1))
    (htyp : claims.TokenType = "app") :
    ∃ response err,
      IotDeviceAuthenticationHandler E (some lambdaCtx) event st
        = returned ((response, err), st1) ∧
      ((response.IsAuthenticated = true ∧ err = none) ↔
        (claims.Subject = schedulerAppID ∧ claims.Subject.data <+: c.data)) ∧
      ((claims.Subject = schedulerAppID ∧ claims.Subject.data <+: c.data) →
        response = successAppAuthResponse awsRegion awsAccount c) ∧
      (¬ (claims.Subject = schedulerAppID ∧ claims.Subject.data <+: c.data) →
        response = failedAuthResponse ∧ err = some ErrUnauthorized) := by
  have hdev : ¬ ("app" : String) = "device" := by decide
  by_cases hsub : claims.Subject = schedulerAppID
  · by_cases hpre : HasPrefix c claims.Subject = true
    · have hp := (hasPrefix_iff c claims.Subject).mp hpre
      refine ⟨successAppAuthResponse awsRegion awsAccount c, none, ?_, ?_, ?_, ?_⟩
      · rw [hsub] at hpre
        simp [IotDeviceAuthenticationHandler, harn, marshalIndentError, hcred, htoken, hval,
          principalDecision, htyp, TokenTypeDeviceAccessToken, TokenTypeAppAccessToken, hdev,
          hsub, hpre]
      · have hp2 := hp
        rw [hsub] at hp2
        simp [successAppAuthResponse, hsub, hp2]
      · intro _; rfl
      · intro h; exact absurd ⟨hsub, hp⟩ h
    · have hp : ¬ claims.Subject.data <+: c.data :=
        fun h => hpre ((hasPrefix_iff c claims.Subject).mpr h)
      refine ⟨failedAuthResponse, some ErrUnauthorized, ?_, ?_, ?_, ?_⟩
      · rw [hsub] at hpre
        simp [IotDeviceAuthenticationHandler, harn, marshalIndentError, hcred, htoken, hval,
          principalDecision, htyp, TokenTypeDeviceAccessToken, TokenTypeAppAccessToken, hdev,
          hsub, hpre]
      · simp [failedAuthResponse, hp]
      · intro h; exact absurd h.2 hp
      · intro _; exact ⟨rfl, rfl⟩
  · refine ⟨failedAuthResponse, some ErrUnauthorized, ?_, ?_, ?_, ?_⟩
    · simp [IotDeviceAuthenticationHandler, harn, marshalIndentError, hcred, htoken, hval,
        principalDecision, htyp, TokenTypeDeviceAccessToken, TokenTypeAppAccessToken, hdev,
        hsub]
    · simp [failedAuthResponse, hsub]
    · intro h; exact absurd h.1 hsub
    · intro _; exact ⟨rfl, rfl⟩

/-- C2 at a concrete input: the scheduler token presented over MQTT with a
client id made of the scheduler identifier and a suffix. -/
theorem app_token_authenticated_iff_scheduler_and_client_starts_with_subject_witness :
    ∃ response err,
      IotDeviceAuthenticationHandler (exampleEnv (.transportError (library "timeout")) ⟨[]⟩)
          exampleCtx (mqttEvent "device_token=app" "bebc5cbf-acc0-431f-8c4e-c582dc2489e2-abc123")
          stateWithK1
        = returned ((response, err), stateWithK1) ∧
      ((response.IsAuthenticated = true ∧ err = none) ↔
        (schedulerAppID = schedulerAppID ∧
          schedulerAppID.data <+: "bebc5cbf-acc0-431f-8c4e-c582dc2489e2-abc123".data)) ∧
      ((schedulerAppID = schedulerAppID ∧
          schedulerAppID.data <+: "bebc5cbf-acc0-431f-8c4e-c582dc2489e2-abc123".data) →
        response = successAppAuthResponse "us-west-2" "719809574944"
          "bebc5cbf-acc0-431f-8c4e-c582dc2489e2-abc123") ∧
      (¬ (schedulerAppID = schedulerAppID ∧
          schedulerAppID.data <+: "bebc5cbf-acc0-431f-8c4e-c582dc2489e2-abc123".data) →
        response = failedAuthResponse ∧ err = some ErrUnauthorized) :=
  app_token_authenticated_iff_scheduler_and_client_starts_with_subject
    (exampleEnv (.transportError (library "timeout")) ⟨[]⟩) ⟨exampleArn⟩
    (mqttEvent "device_token=app" "bebc5cbf-acc0-431f-8c4e-c582dc2489e2-abc123")
    stateWithK1 stateWithK1 "us-west-2" "719809574944"
    "app" "bebc5cbf-acc0-431f-8c4e-c582dc2489e2-abc123"
    (claimsOf "HP Device Token Service" schedulerAppID "app")
    (by rfl) (by rfl) (by decide) (by rfl) (by rfl)

/-! ## Key material (C3) -/

theorem intOfUint64_of_le_MaxInt (exp : Nat) (h : ¬ exp > MaxInt) :
    intOfUint64 exp = (exp : Int) := by
  unfold intOfUint64
  unfold MaxInt at h
  have h2 : exp < 2 ^ 63 := by omega
  rw [if_pos h2]

theorem parseRSASigningKey_of_decoded (j : jsonWebKey) (exponent modulus : List Byte)
    (hE : j.Exponent ≠ "") (hM : j.Modulus ≠ "")
    (he : base64urlTrailingPadding j.Exponent = .ok exponent)
    (hm : base64urlTrailingPadding j.Modulus = .ok modulus) :
    parseRSASigningKey j =
      if SetBytes exponent % 2 ^ 64 > MaxInt then .error ErrOverflowDetected
      else .ok { N := SetBytes modulus, E := ((SetBytes exponent % 2 ^ 64 : Nat) : Int) } := by
  unfold parseRSASigningKey
  simp only [hE, hM, or_self, if_false, he, hm, Uint64]
  split_ifs with h
  · rfl
  · rw [intOfUint64_of_le_MaxInt _ h]

/-- C3 (failing input): the exponent `AQAAAAAAAQAB` decodes to the nine bytes
`01 00 00 00 00 00 01 00 01`, whose big-endian value `2^64 + 65537` exceeds
`math.MaxInt`; `parseRSASigningKey` does not return `ErrOverflowDetected` but
a key whose `E` is that value wrapped modulo `2^64`, namely `65537`.  The
eight-byte exponent `gAAAAAAAAAA` of value `2^63` is rejected. -/
theorem parseRSASigningKey_wraps_exponent_above_64_bits :
    base64urlTrailingPadding "AQAAAAAAAQAB" = .ok [1, 0, 0, 0, 0, 0, 1, 0, 1] ∧
    SetBytes [1, 0, 0, 0, 0, 0, 1, 0, 1] = 2 ^ 64 + 65537 ∧
    MaxInt < 2 ^ 64 + 65537 ∧
    parseRSASigningKey (jwk "RSA" "k1" "uw" "AQAAAAAAAQAB") = .ok { N := 187, E := 65537 } ∧
    parseRSASigningKey (jwk "RSA" "k1" "uw" "AQAAAAAAAQAB") ≠ .error ErrOverflowDetected ∧
    parseRSASigningKey (jwk "RSA" "k1" "uw" "gAAAAAAAAAA") = .error ErrOverflowDetected := by
  refine ⟨by decide, by decide, by decide, by decide, by decide, by decide⟩

/-! ## Refreshing the key table (C4, C5, C6) -/

theorem getKeysFromServer_fetchAttempts (E : Env) (keysUrl : String) (st : State) :
    (getKeysFromServer E keysUrl st).2.fetchAttempts = st.fetchAttempts + 1 ∧
    (getKeysFromServer E keysUrl st).2.signingKeyTable = st.signingKeyTable ∧
    (getKeysFromServer E keysUrl st).2.dstsJwksUrl = st.dstsJwksUrl := by
  unfold getKeysFromServer
  cases E.httpGet keysUrl st.fetchAttempts with
  | requestError err => simp
  | transportError err => simp
  | response statusCode body readErr =>
    by_cases h : statusCode = 200 <;> simp [h]

theorem getJWKSSigningKey_fetchAttempts (E : Env) (url : String) (st st1 : State)
    (err : Option GoError) (h : getJWKSSigningKey E url st = returned (err, st1)) :
    st1.fetchAttempts = st.fetchAttempts + 1 := by
  have hk := (getKeysFromServer_fetchAttempts E url st).1
  unfold getJWKSSigningKey at h
  split at h
  · simp only [Outcome.returned.injEq, Prod.mk.injEq] at h
    rename_i heq
    rw [heq] at hk
    rw [← h.2]
    exact hk
  · rename_i heq
    rw [heq] at hk
    split at h
    · simp only [Outcome.returned.injEq, Prod.mk.injEq] at h
      rw [← h.2]
      exact hk
    · split at h
      · simp at h
      · simp only [Outcome.returned.injEq, Prod.mk.injEq] at h
        rw [← h.2]
        exact hk

/-- C4 (failing input): the table holds `k1`; the fetched document has the
valid RSA entry `a` followed by the RSA entry `b` without an exponent.
`getJWKSSigningKey` returns `ErrMissingAssets`, and the table it leaves is
not the prior one: `k1` is gone and `a` has been stored. -/
theorem getJWKSSigningKey_parse_failure_leaves_partial_table :
    ∃ st1,
      getJWKSSigningKey
          (exampleEnv (.response 200 [123, 125] none)
            ⟨[some (jwk "RSA" "a" "AQAB" "AQAB"), some (jwk "RSA" "b" "uw" "")]⟩)
          "https://dsts.example/jwks" stateWithK1
        = returned (some ErrMissingAssets, st1) ∧
      stateWithK1.signingKeyTable "k1" = some { N := 187, E := 65537 } ∧
      st1.signingKeyTable "k1" = none ∧
      stateWithK1.signingKeyTable "a" = none ∧
      st1.signingKeyTable "a" = some { N := 65537, E := 65537 } ∧
      st1.signingKeyTable ≠ stateWithK1.signingKeyTable := by
  refine ⟨_, rfl, by decide, by decide, by decide, by decide, ?_⟩
  intro h
  exact absurd (congrFun h "k1") (by decide)

/-- C5: when the fetch attempt ends in a request or transport error
(timeouts included), in a response whose status is not 200, or in a read
error on the body, `getJWKSSigningKey` returns a non-nil error and leaves
`signingKeyTable` as it was, and every key that was cached is still returned
by `getSigningKey` without a further fetch. -/
theorem getJWKSSigningKey_fetch_failure_keeps_table (E : Env) (url : String) (st : State)
    (hfetch :
      (∃ err, E.httpGet url st.fetchAttempts = .requestError err) ∨
      (∃ err, E.httpGet url st.fetchAttempts = .transportError err) ∨
      (∃ statusCode body readErr,
        E.httpGet url st.fetchAttempts = .response statusCode body readErr ∧ statusCode ≠ 200) ∨
      (∃ body err, E.httpGet url st.fetchAttempts = .response 200 body (some err))) :
    ∃ err st1,
      getJWKSSigningKey E url st = returned (some err, st1) ∧
      st1.signingKeyTable = st.signingKeyTable ∧
      ∀ token kid key, token.Header.lookup "kid" = some (.str kid) →
        st.signingKeyTable kid = some key →
        getSigningKey E token st1 = returned (.ok key, st1) := by
  have key : ∃ err, getJWKSSigningKey E url st
      = returned (some err, { st with fetchAttempts := st.fetchAttempts + 1 }) := by
    rcases hfetch with ⟨err, h⟩ | ⟨err, h⟩ | ⟨statusCode, body, readErr, h, hne⟩ | ⟨body, err, h⟩
    · exact ⟨err, by simp [getJWKSSigningKey, getKeysFromServer, h]⟩
    · exact ⟨err, by simp [getJWKSSigningKey, getKeysFromServer, h]⟩
    · exact ⟨jsonUnexpectedEnd, by
        simp [getJWKSSigningKey, getKeysFromServer, h, hne, jsonUnmarshal]⟩
    · exact ⟨err, by simp [getJWKSSigningKey, getKeysFromServer, h]⟩
  obtain ⟨err, herr⟩ := key
  refine ⟨err, _, herr, rfl, ?_⟩
  intro token kid key hkid hkey
  simp [getSigningKey, hkid, hkey]

/-- C5 at a concrete input: the trust source answers 503 while `k1` is cached. -/
theorem getJWKSSigningKey_fetch_failure_keeps_table_witness :
    ∃ err st1,
      getJWKSSigningKey (exampleEnv (.response 503 [60, 33, 62] none) ⟨[]⟩)
          "https://dsts.example/jwks" stateWithK1 = returned (some err, st1) ∧
      st1.signingKeyTable = stateWithK1.signingKeyTable ∧
      ∀ token kid key, token.Header.lookup "kid" = some (.str kid) →
        stateWithK1.signingKeyTable kid = some key →
        getSigningKey (exampleEnv (.response 503 [60, 33, 62] none) ⟨[]⟩) token st1
          = returned (.ok key, st1) :=
  getJWKSSigningKey_fetch_failure_keeps_table (exampleEnv (.response 503 [60, 33, 62] none) ⟨[]⟩)
    "https://dsts.example/jwks" stateWithK1
    (Or.inr (Or.inr (Or.inl ⟨503, [60, 33, 62], none, rfl, by decide⟩)))

/-- C6 (counterexample): the table is empty, the token names `k1` and the
single refresh ends in a transport error.  After the refresh `k1` is still
absent, yet `getSigningKey` returns the error of the refresh, which is not
the "no public key" error. -/
theorem getSigningKey_failed_refresh_returns_refresh_error :
    ∃ st1,
      getSigningKey (exampleEnv (.transportError (library "timeout")) ⟨[]⟩)
          (tokenOf (claimsOf "HP Device Token Service" "d1" "device")) stateEmpty
        = returned (.error (library "timeout"), st1) ∧
      (tokenOf (claimsOf "HP Device Token Service" "d1" "device")).Header.lookup "kid"
        = some (.str "k1") ∧
      stateEmpty.signingKeyTable "k1" = none ∧
      st1.signingKeyTable "k1" = none ∧
      st1.fetchAttempts = stateEmpty.fetchAttempts + 1 ∧
      library "timeout" ≠ noPublicKey "k1" := by
  refine ⟨_, rfl, by decide, by decide, by decide, by decide, by decide⟩

/-- C6 (amended): for a token with the string key id `kid`: if `kid` is in
the table, `getSigningKey` returns the cached key and the state is untouched
(no fetch); if it is not, the result is that of exactly one call of
`getJWKSSigningKey` (one fetch attempt): a panic of the refresh is a panic,
an error of the refresh is returned as it is, and after a refresh without
error the key now stored under `kid` is returned, or the "no public key"
error when there is none. -/
theorem getSigningKey_refreshes_once_on_miss (E : Env) (token : Token) (kid : String)
    (st : State) (hkid : token.Header.lookup "kid" = some (.str kid)) :
    (∀ key, st.signingKeyTable kid = some key →
      getSigningKey E token st = returned (.ok key, st)) ∧
    (st.signingKeyTable kid = none →
      (getJWKSSigningKey E st.dstsJwksUrl st = panicked → getSigningKey E token st = panicked) ∧
      (∀ err st1, getJWKSSigningKey E st.dstsJwksUrl st = returned (some err, st1) →
        getSigningKey E token st = returned (.error err, st1) ∧
        st1.fetchAttempts = st.fetchAttempts + 1) ∧
      (∀ st1, getJWKSSigningKey E st.dstsJwksUrl st = returned (none, st1) →
        st1.fetchAttempts = st.fetchAttempts + 1 ∧
        (∀ key, st1.signingKeyTable kid = some key →
          getSigningKey E token st = returned (.ok key, st1)) ∧
        (st1.signingKeyTable kid = none →
          getSigningKey E token st = returned (.error (noPublicKey kid), st1)))) := by
  refine ⟨?_, ?_⟩
  · intro key hkey
    simp [getSigningKey, hkid, hkey]
  · intro hmiss
    refine ⟨?_, ?_, ?_⟩
    · intro hp
      simp [getSigningKey, hkid, hmiss, hp]
    · intro err st1 hr
      refine ⟨?_, getJWKSSigningKey_fetchAttempts E _ st st1 _ hr⟩
      simp [getSigningKey, hkid, hmiss, hr]
    · intro st1 hr
      refine ⟨getJWKSSigningKey_fetchAttempts E _ st st1 _ hr, ?_, ?_⟩
      · intro key hkey
        simp [getSigningKey, hkid, hmiss, hr, hkey]
      · intro hnone
        simp [getSigningKey, hkid, hmiss, hr, hnone]

/-- C6 (amended) at a concrete input: the table is empty and the trust source
publishes the key `k1`. -/
theorem getSigningKey_refreshes_once_on_miss_witness :
    (∀ key, stateEmpty.signingKeyTable "k1" = some key →
      getSigningKey (exampleEnv (.response 200 [123, 125] none) ⟨[some (jwk "RSA" "k1" "uw" "AQAB")]⟩)
        (tokenOf (claimsOf "HP Device Token Service" "d1" "device")) stateEmpty
        = returned (.ok key, stateEmpty)) ∧
    (stateEmpty.signingKeyTable "k1" = none →
      (getJWKSSigningKey
          (exampleEnv (.response 200 [123, 125] none) ⟨[some (jwk "RSA" "k1" "uw" "AQAB")]⟩)
          stateEmpty.dstsJwksUrl stateEmpty = panicked →
        getSigningKey
          (exampleEnv (.response 200 [123, 125] none) ⟨[some (jwk "RSA" "k1" "uw" "AQAB")]⟩)
          (tokenOf (claimsOf "HP Device Token Service" "d1" "device")) stateEmpty = panicked) ∧
      (∀ err st1, getJWKSSigningKey
          (exampleEnv (.response 200 [123, 125] none) ⟨[some (jwk "RSA" "k1" "uw" "AQAB")]⟩)
          stateEmpty.dstsJwksUrl stateEmpty = returned (some err, st1) →
        getSigningKey
          (exampleEnv (.response 200 [123, 125] none) ⟨[some (jwk "RSA" "k1" "uw" "AQAB")]⟩)
          (tokenOf (claimsOf "HP Device Token Service" "d1" "device")) stateEmpty
          = returned (.error err, st1) ∧
        st1.fetchAttempts = stateEmpty.fetchAttempts + 1) ∧
      (∀ st1, getJWKSSigningKey
          (exampleEnv (.response 200 [123, 125] none) ⟨[some (jwk "RSA" "k1" "uw" "AQAB")]⟩)
          stateEmpty.dstsJwksUrl stateEmpty = returned (none, st1) →
        st1.fetchAttempts = stateEmpty.fetchAttempts + 1 ∧
        (∀ key, st1.signingKeyTable "k1" = some key →
          getSigningKey
            (exampleEnv (.response 200 [123, 125] none) ⟨[some (jwk "RSA" "k1" "uw" "AQAB")]⟩)
            (tokenOf (claimsOf "HP Device Token Service" "d1" "device")) stateEmpty
            = returned (.ok key, st1)) ∧
        (st1.signingKeyTable "k1" = none →
          getSigningKey
            (exampleEnv (.response 200 [123, 125] none) ⟨[some (jwk "RSA" "k1" "uw" "AQAB")]⟩)
            (tokenOf (claimsOf "HP Device Token Service" "d1" "device")) stateEmpty
            = returned (.error (noPublicKey "k1"), st1)))) :=
  getSigningKey_refreshes_once_on_miss
    (exampleEnv (.response 200 [123, 125] none) ⟨[some (jwk "RSA" "k1" "uw" "AQAB")]⟩)
    (tokenOf (claimsOf "HP Device Token Service" "d1" "device")) "k1" stateEmpty (by decide)

/-! ## The decision returned by the handler (C7, C8, C9) -/

theorem httpCredentials_exit (E : Env) (event : IoTCoreCustomAuthorizerRequest)
    (response : IoTCoreCustomAuthorizerResponse) (err : GoError)
    (h : httpCredentials E event = returned (.error (response, err))) :
    response = emptyResponse := by
  unfold httpCredentials at h
  repeat' split at h
  all_goals simp at h
  all_goals exact h.1.symm

theorem mqttCredentials_exit (E : Env) (event : IoTCoreCustomAuthorizerRequest)
    (deviceAccessToken clientID : String)
    (response : IoTCoreCustomAuthorizerResponse) (err : GoError)
    (h : mqttCredentials E event deviceAccessToken clientID = returned (.error (response, err))) :
    response = emptyResponse := by
  unfold mqttCredentials at h
  repeat' split at h
  all_goals simp at h
  all_goals exact h.1.symm

theorem credentials_exit (E : Env) (event : IoTCoreCustomAuthorizerRequest)
    (response : IoTCoreCustomAuthorizerResponse) (err : GoError)
    (h : credentials E event = returned (.error (response, err))) :
    response = emptyResponse := by
  unfold credentials at h
  split at h
  · simp at h
  · simp only [Outcome.returned.injEq, Except.error.injEq] at h
    rename_i exit heq
    rw [h] at heq
    exact httpCredentials_exit E event response err heq
  · exact mqttCredentials_exit E event _ _ response err h

theorem principalDecision_fail_closed (awsRegion awsAccount : String)
    (claims : DstsTokenClaims) (clientID : String) :
    ((principalDecision awsRegion awsAccount claims clientID).1.PolicyDocuments ≠ none ↔
      (principalDecision awsRegion awsAccount claims clientID).1.IsAuthenticated = true) ∧
    ((principalDecision awsRegion awsAccount claims clientID).1.IsAuthenticated = true →
      (principalDecision awsRegion awsAccount claims clientID).2 = none) ∧
    ((principalDecision awsRegion awsAccount claims clientID).2 ≠ none →
      (principalDecision awsRegion awsAccount claims clientID).1.IsAuthenticated = false) := by
  unfold principalDecision
  split_ifs <;>
    simp [failedAuthResponse, successDeviceAuthResponse, successAppAuthResponse]

/-- C7: every response the handler returns, with its error, satisfies:
`PolicyDocuments` is non-nil if and only if `IsAuthenticated` is true;
`IsAuthenticated` is true only if the error is nil and
`validateDstsAccessToken`, run on the state the handler started in, succeeded
on some credential; and a non-nil error comes with `IsAuthenticated` false. -/
theorem handler_decision_fail_closed (E : Env) (ctx : Option LambdaContext)
    (event : IoTCoreCustomAuthorizerRequest) (st st1 : State)
    (response : IoTCoreCustomAuthorizerResponse) (err : Option GoError)
    (h : IotDeviceAuthenticationHandler E ctx event st = returned ((response, err), st1)) :
    (response.PolicyDocuments ≠ none ↔ response.IsAuthenticated = true) ∧
    (response.IsAuthenticated = true →
      err = none ∧
      ∃ token clientID claims, credentials E event = returned (.ok (token, clientID)) ∧
        validateDstsAccessToken E token st = returned (.ok claims, st1)) ∧
    (err ≠ none → response.IsAuthenticated = false) := by
  have hfailed : ∀ (e : Option GoError) (s : State),
      returned ((failedAuthResponse, e), s) = returned ((response, err), st1) →
      (response.PolicyDocuments ≠ none ↔ response.IsAuthenticated = true) ∧
      (response.IsAuthenticated = true →
        err = none ∧
        ∃ token clientID claims, credentials E event = returned (.ok (token, clientID)) ∧
        validateDstsAccessToken E token st = returned (.ok claims, st1)) ∧
      (err ≠ none → response.IsAuthenticated = false) := by
    intro e s he
    simp only [Outcome.returned.injEq, Prod.mk.injEq] at he
    rw [← he.1.1]
    simp [failedAuthResponse]
  have hempty : ∀ (e : Option GoError) (s : State),
      returned ((emptyResponse, e), s) = returned ((response, err), st1) →
      (response.PolicyDocuments ≠ none ↔ response.IsAuthenticated = true) ∧
      (response.IsAuthenticated = true →
        err = none ∧
        ∃ token clientID claims, credentials E event = returned (.ok (token, clientID)) ∧
        validateDstsAccessToken E token st = returned (.ok claims, st1)) ∧
      (err ≠ none → response.IsAuthenticated = false) := by
    intro e s he
    simp only [Outcome.returned.injEq, Prod.mk.injEq] at he
    rw [← he.1.1]
    simp [emptyResponse]
  unfold IotDeviceAuthenticationHandler at h
  split at h
  · exact hfailed _ _ h
  · split at h
    · simp at h
    · split at h
      · exact hfailed _ _ h
      · split at h
        · simp at h
        · rename_i exitResponse exitErr hcred
          have hexit := credentials_exit E event exitResponse exitErr hcred
          rw [hexit] at h
          exact hempty _ _ h
        · split at h
          · exact hempty _ _ h
          · split at h
            · simp at h
            · exact hfailed _ _ h
            · rename_i awsRegion awsAccount _ _ _ _ deviceAccessToken clientID hcred _ _ claims st2 hval
              simp only [Outcome.returned.injEq, Prod.mk.injEq] at h
              have hd := principalDecision_fail_closed awsRegion awsAccount claims clientID
              have hresp : (principalDecision awsRegion awsAccount claims clientID).1 = response :=
                congrArg Prod.fst h.1
              have herr : (principalDecision awsRegion awsAccount claims clientID).2 = err :=
                congrArg Prod.snd h.1
              rw [hresp, herr] at hd
              refine ⟨hd.1, ?_, hd.2.2⟩
              intro hauth
              refine ⟨hd.2.1 hauth, deviceAccessToken, clientID, claims, hcred, ?_⟩
              rw [← h.2]
              exact hval

/-- C7 at a concrete input: the device token for `d1` presented with client
id `d1` over MQTT, which the handler authenticates. -/
theorem handler_decision_fail_closed_witness :
    ((successDeviceAuthResponse "us-west-2" "719809574944" "d1").PolicyDocuments ≠ none ↔
      (successDeviceAuthResponse "us-west-2" "719809574944" "d1").IsAuthenticated = true) ∧
    ((successDeviceAuthResponse "us-west-2" "719809574944" "d1").IsAuthenticated = true →
      (none : Option GoError) = none ∧
      ∃ token clientID claims,
        credentials (exampleEnv (.transportError (library "timeout")) ⟨[]⟩)
          (mqttEvent "device_token=dev" "d1") = returned (.ok (token, clientID)) ∧
        validateDstsAccessToken (exampleEnv (.transportError (library "timeout")) ⟨[]⟩) token
          stateWithK1 = returned (.ok claims, stateWithK1)) ∧
    ((none : Option GoError) ≠ none →
      (successDeviceAuthResponse "us-west-2" "719809574944" "d1").IsAuthenticated = false) :=
  handler_decision_fail_closed (exampleEnv (.transportError (library "timeout")) ⟨[]⟩)
    exampleCtx (mqttEvent "device_token=dev" "d1") stateWithK1 stateWithK1
    (successDeviceAuthResponse "us-west-2" "719809574944" "d1") none (by rfl)

/-- C8 (failing inputs): four denials made before validation return
`events.IoTCoreCustomAuthorizerResponse{}`, whose two durations are 0 and not
300: no credential at all, an `Authorization` header without the bearer
prefix, a query string that does not parse, and an empty MQTT user name.  A
denial made after validation (client id `d2` for the device `d1`) carries
300 and 300. -/
theorem early_denials_carry_zero_durations :
    (∃ st1, IotDeviceAuthenticationHandler (exampleEnv (.transportError (library "timeout")) ⟨[]⟩)
        exampleCtx bareEvent stateWithK1
      = returned ((emptyResponse, some ErrUnauthorized), st1)) ∧
    (∃ st1, IotDeviceAuthenticationHandler (exampleEnv (.transportError (library "timeout")) ⟨[]⟩)
        exampleCtx (httpEvent "Token xyz" "") stateWithK1
      = returned ((emptyResponse, some ErrUnauthorized), st1)) ∧
    (∃ st1, IotDeviceAuthenticationHandler (exampleEnv (.transportError (library "timeout")) ⟨[]⟩)
        exampleCtx (httpEvent "Bearer dev" "client_id=d1;x=1") stateWithK1
      = returned ((emptyResponse, some ErrBadRequest), st1)) ∧
    (∃ st1, IotDeviceAuthenticationHandler (exampleEnv (.transportError (library "timeout")) ⟨[]⟩)
        exampleCtx (mqttEvent "" "d1") stateWithK1
      = returned ((emptyResponse, some ErrBadRequest), st1)) ∧
    (∃ st1, IotDeviceAuthenticationHandler (exampleEnv (.transportError (library "timeout")) ⟨[]⟩)
        exampleCtx (mqttEvent "device_token=dev" "d2") stateWithK1
      = returned ((failedAuthResponse, some ErrUnauthorized), st1)) ∧
    emptyResponse.IsAuthenticated = false ∧
    emptyResponse.RefreshAfterInSeconds = 0 ∧
    emptyResponse.DisconnectAfterInSeconds = 0 ∧
    failedAuthResponse.RefreshAfterInSeconds = 300 ∧
    failedAuthResponse.DisconnectAfterInSeconds = 300 := by
  refine ⟨⟨_, rfl⟩, ⟨_, rfl⟩, ⟨_, rfl⟩, ⟨_, rfl⟩, ⟨_, rfl⟩, ?_⟩
  decide

/-- C9: when the invocation carries an ARN with a region and an account, the
protocol list contains `http` and the HTTP headers map `Authorization` to a
value that does not start with `Bearer `, the handler returns the empty
response with `ErrUnauthorized` and the state it was given (table and fetch
count unchanged), whatever the library environment, the key table and the
MQTT data of the event are. -/
theorem handler_rejects_authorization_without_bearer (E : Env) (lambdaCtx : LambdaContext)
    (event : IoTCoreCustomAuthorizerRequest) (st : State)
    (awsRegion awsAccount : String) (protocolData : IoTCoreProtocolData)
    (http : IoTCoreHTTPContext) (headers : List (String × String)) (authzHeader : String)
    (harn : arnRegionAccount lambdaCtx.InvokedFunctionArn = returned (awsRegion, awsAccount))
    (hproto : "http" ∈ event.Protocols)
    (hdata : event.ProtocolData = some protocolData)
    (hhttp : protocolData.HTTP = some http)
    (hheaders : http.Headers = some headers)
    (hauthz : headers.lookup "Authorization" = some authzHeader)
    (hbearer : ¬ "Bearer ".data <+: authzHeader.data) :
    IotDeviceAuthenticationHandler E (some lambdaCtx) event st
      = returned ((emptyResponse, some ErrUnauthorized), st) := by
  have hp : containsProtocol event.Protocols protocolHttp = true :=
    (containsProtocol_iff event.Protocols protocolHttp).mpr hproto
  have hb : HasPrefix authzHeader bearerTokenPrefix = false := by
    cases hv : HasPrefix authzHeader bearerTokenPrefix with
    | false => rfl
    | true => exact absurd ((hasPrefix_iff authzHeader bearerTokenPrefix).mp hv) hbearer
  have hcred : credentials E event = returned (.error (emptyResponse, ErrUnauthorized)) := by
    simp [credentials, httpCredentials, hp, hdata, hhttp, hheaders, headerAuthorization,
      hauthz, hb]
  simp [IotDeviceAuthenticationHandler, harn, marshalIndentError, hcred]

/-- C9 at a concrete input: the header `Authorization: Token xyz`. -/
theorem handler_rejects_authorization_without_bearer_witness :
    IotDeviceAuthenticationHandler (exampleEnv (.transportError (library "timeout")) ⟨[]⟩)
        (some ⟨exampleArn⟩) (httpEvent "Token xyz" "client_id=d1") stateWithK1
      = returned ((emptyResponse, some ErrUnauthorized), stateWithK1) :=
  handler_rejects_authorization_without_bearer
    (exampleEnv (.transportError (library "timeout")) ⟨[]⟩) ⟨exampleArn⟩
    (httpEvent "Token xyz" "client_id=d1") stateWithK1 "us-west-2" "719809574944"
    { TLS := none, MQTT := none
      HTTP := some { Headers := some [("Authorization", "Token xyz")]
                     QueryString := "client_id=d1" } }
    { Headers := some [("Authorization", "Token xyz")], QueryString := "client_id=d1" }
    [("Authorization", "Token xyz")] "Token xyz"
    (by rfl) (by decide) (by rfl) (by rfl) (by rfl) (by rfl) (by decide)

/-! ## Token validation (C10) -/

/-- C10: when the JWT parser accepts the token (decoding, key lookup, claim
and signature checks pass) and the token header has a non-nil `alg`,
`validateDstsAccessToken` returns the decoded claims if and only if the
issuer starts with `HP Device Token Service`, and returns
`ErrInvalidIssuerClaim` otherwise. -/
theorem validateDstsAccessToken_ok_iff_issuer_starts_with_name (E : Env)
    (accessToken : String) (st st1 : State) (token : Token)
    (hparse : ParseWithClaims E accessToken (getSigningKey E) st = returned (.ok token, st1))
    (halg : headerIsNil token "alg" = false) :
    (validateDstsAccessToken E accessToken st = returned (.ok token.Claims, st1) ↔
      "HP Device Token Service".data <+: token.Claims.Issuer.data) ∧
    ((∃ claims st2, validateDstsAccessToken E accessToken st = returned (.ok claims, st2)) ↔
      "HP Device Token Service".data <+: token.Claims.Issuer.data) ∧
    (¬ "HP Device Token Service".data <+: token.Claims.Issuer.data →
      validateDstsAccessToken E accessToken st = returned (.error ErrInvalidIssuerClaim, st1)) := by
  have hvalid := ParseWithClaims_ok_valid E accessToken (getSigningKey E) st st1 token hparse
  by_cases hiss : HasPrefix token.Claims.Issuer dstsIssuerName = true
  · have hp := (hasPrefix_iff token.Claims.Issuer dstsIssuerName).mp hiss
    have hv : validateDstsAccessToken E accessToken st = returned (.ok token.Claims, st1) := by
      simp [validateDstsAccessToken, hparse, hvalid, halg, hiss]
    refine ⟨⟨fun _ => hp, fun _ => hv⟩, ⟨fun _ => hp, fun _ => ⟨_, _, hv⟩⟩, ?_⟩
    intro h
    exact absurd hp h
  · have hp : ¬ "HP Device Token Service".data <+: token.Claims.Issuer.data :=
      fun h => hiss ((hasPrefix_iff token.Claims.Issuer dstsIssuerName).mpr h)
    have hv : validateDstsAccessToken E accessToken st
        = returned (.error ErrInvalidIssuerClaim, st1) := by
      simp [validateDstsAccessToken, hparse, hvalid, halg, hiss]
    refine ⟨⟨?_, fun h => absurd h hp⟩, ⟨?_, fun h => absurd h hp⟩, fun _ => hv⟩
    · intro h
      rw [hv] at h
      simp at h
    · rintro ⟨claims, st2, h⟩
      rw [hv] at h
      simp at h

/-- C10 at a concrete input: the token `iss`, whose issuer is `Another Service`. -/
theorem validateDstsAccessToken_ok_iff_issuer_starts_with_name_witness :
    (validateDstsAccessToken (exampleEnv (.transportError (library "timeout")) ⟨[]⟩) "iss"
        stateWithK1
      = returned (.ok (claimsOf "Another Service" "d1" "device"), stateWithK1) ↔
      "HP Device Token Service".data <+: "Another Service".data) ∧
    ((∃ claims st2,
        validateDstsAccessToken (exampleEnv (.transportError (library "timeout")) ⟨[]⟩) "iss"
          stateWithK1 = returned (.ok claims, st2)) ↔
      "HP Device Token Service".data <+: "Another Service".data) ∧
    (¬ "HP Device Token Service".data <+: "Another Service".data →
      validateDstsAccessToken (exampleEnv (.transportError (library "timeout")) ⟨[]⟩) "iss"
        stateWithK1 = returned (.error ErrInvalidIssuerClaim, stateWithK1)) :=
  validateDstsAccessToken_ok_iff_issuer_starts_with_name
    (exampleEnv (.transportError (library "timeout")) ⟨[]⟩) "iss" stateWithK1 stateWithK1
    { tokenOf (claimsOf "Another Service" "d1" "device") with Valid := true }
    (by rfl) (by rfl)

/-! ## The handler returns unless one of three panics occurs -/

theorem storeKeys_returns (keys : List (Option jsonWebKey)) (table : KeyTable)
    (h : ∀ key ∈ keys, key ≠ none) : ∃ r, storeKeys keys table = returned r := by
  induction keys generalizing table with
  | nil => exact ⟨_, rfl⟩
  | cons key rest ih =>
    have hrest : ∀ k ∈ rest, k ≠ none := fun k hk => h k (List.mem_cons_of_mem _ hk)
    cases key with
    | none => exact absurd rfl (h none (List.mem_cons_self _ _))
    | some j =>
      unfold storeKeys
      split_ifs
      · split
        · exact ⟨_, rfl⟩
        · exact ih _ hrest
      · exact ih _ hrest

theorem getJWKSSigningKey_returns (E : Env) (hkeys : NoNilKeys E) (url : String) (st : State) :
    ∃ r, getJWKSSigningKey E url st = returned r := by
  unfold getJWKSSigningKey
  split
  · exact ⟨_, rfl⟩
  · split
    · exact ⟨_, rfl⟩
    · rename_i jwksBytes _ _ _ rawKS hdoc
      have hdec : E.decodeJWKS jwksBytes = .ok rawKS := by
        unfold jsonUnmarshal at hdoc
        split_ifs at hdoc
        exact hdoc
      obtain ⟨r, hr⟩ := storeKeys_returns rawKS.Keys emptyTable (hkeys _ _ hdec)
      rw [hr]
      exact ⟨_, rfl⟩

theorem getSigningKey_returns (E : Env) (hkeys : NoNilKeys E) (token : Token) (st : State) :
    ∃ r, getSigningKey E token st = returned r := by
  unfold getSigningKey
  split
  · split
    · exact ⟨_, rfl⟩
    · obtain ⟨r, hr⟩ := getJWKSSigningKey_returns E hkeys st.dstsJwksUrl st
      rw [hr]
      obtain ⟨err, st1⟩ := r
      cases err with
      | some e => exact ⟨_, rfl⟩
      | none =>
        simp only
        split <;> exact ⟨_, rfl⟩
  · exact ⟨_, rfl⟩

theorem validateDstsAccessToken_returns (E : Env) (hkeys : NoNilKeys E) (accessToken : String)
    (st : State) : ∃ r, validateDstsAccessToken E accessToken st = returned r := by
  have hparse : ∃ r, ParseWithClaims E accessToken (getSigningKey E) st = returned r := by
    unfold ParseWithClaims
    split
    · exact ⟨_, rfl⟩
    · rename_i token _
      obtain ⟨r, hr⟩ := getSigningKey_returns E hkeys token st
      rw [hr]
      obtain ⟨res, st1⟩ := r
      cases res with
      | error e => exact ⟨_, rfl⟩
      | ok key =>
        simp only
        split <;> exact ⟨_, rfl⟩
  obtain ⟨r, hr⟩ := hparse
  unfold validateDstsAccessToken
  rw [hr]
  obtain ⟨res, st1⟩ := r
  cases res with
  | error e => exact ⟨_, rfl⟩
  | ok token =>
    simp only
    split_ifs <;> exact ⟨_, rfl⟩

theorem getQueryParameter_returns (values : Values) (name : String)
    (h : values.lookup name ≠ some []) : ∃ r, getQueryParameter values name = returned r := by
  unfold getQueryParameter
  split
  · exact ⟨_, rfl⟩
  · rename_i heq
    exact absurd heq h
  · exact ⟨_, rfl⟩

theorem credentials_returns (E : Env) (hvalues : NoEmptyValues E)
    (event : IoTCoreCustomAuthorizerRequest) : ∃ r, credentials E event = returned r := by
  have hhttp : ∃ r, httpCredentials E event = returned r := by
    unfold httpCredentials
    repeat' split
    all_goals first
      | exact ⟨_, rfl⟩
      | (rename_i values hq _ hpanic
         obtain ⟨r, hr⟩ := getQueryParameter_returns values paramClientId (hvalues _ _ _ hq)
         rw [hr] at hpanic
         simp at hpanic)
  have hmqtt : ∀ token clientID, ∃ r, mqttCredentials E event token clientID = returned r := by
    intro token clientID
    unfold mqttCredentials
    repeat' split
    all_goals first
      | exact ⟨_, rfl⟩
      | (rename_i values hq _ hpanic
         obtain ⟨r, hr⟩ := getQueryParameter_returns values paramDeviceToken (hvalues _ _ _ hq)
         rw [hr] at hpanic
         simp at hpanic)
  obtain ⟨r, hr⟩ := hhttp
  unfold credentials
  rw [hr]
  cases r with
  | error exit => exact ⟨_, rfl⟩
  | ok p =>
    obtain ⟨token, clientID⟩ := p
    exact hmqtt token clientID

/-- The handler returns a response whenever the three panics of the program
are excluded: the ARN of the lambda context (if there is one) has at least
five fields, the JWKS decoder yields no nil entry and the query decoder no
empty slice. -/
theorem handler_returns (E : Env) (hkeys : NoNilKeys E) (hvalues : NoEmptyValues E)
    (ctx : Option LambdaContext) (event : IoTCoreCustomAuthorizerRequest) (st : State)
    (harn : ∀ lambdaCtx, ctx = some lambdaCtx →
      ∃ r, arnRegionAccount lambdaCtx.InvokedFunctionArn = returned r) :
    ∃ r, IotDeviceAuthenticationHandler E ctx event st = returned r := by
  unfold IotDeviceAuthenticationHandler
  cases ctx with
  | none => exact ⟨_, rfl⟩
  | some lambdaCtx =>
    obtain ⟨⟨awsRegion, awsAccount⟩, hr⟩ := harn lambdaCtx rfl
    obtain ⟨c, hc⟩ := credentials_returns E hvalues event
    simp only [hr, marshalIndentError, hc]
    cases c with
    | error exit => exact ⟨_, rfl⟩
    | ok p =>
      obtain ⟨token, clientID⟩ := p
      simp only
      split_ifs
      · exact ⟨_, rfl⟩
      · obtain ⟨v, hv⟩ := validateDstsAccessToken_returns E hkeys token st
        rw [hv]
        obtain ⟨res, st1⟩ := v
        cases res with
        | error e => exact ⟨_, rfl⟩
        | ok claims => exact ⟨_, rfl⟩


/-! ## Round trip of key material (C11) -/

theorem decodeMap_encodeChar_fin : ∀ v : Fin 64, decodeMap (encodeChar v.val) = some v.val := by
  decide

theorem decodeMap_encodeChar (v : Nat) : decodeMap (encodeChar v) = some (v % 64) := by
  have h := decodeMap_encodeChar_fin ⟨v % 64, Nat.mod_lt _ (by decide)⟩
  simp only at h
  unfold encodeChar at h ⊢
  rw [Nat.mod_mod] at h
  exact h


theorem decodeLoop_encodeChars (b : List Byte) : ∀ si, decodeLoop (encodeChars b) si [] = .ok b := by
  induction b using encodeChars.induct with
  | case1 => intro si; rfl
  | case2 x =>
    intro si
    simp only [encodeChars, decodeLoop, decodeMap_encodeChar, List.nil_append, List.cons_append]
    simp only [quantumByte, quantumValue, Except.ok.injEq, List.cons.injEq, and_true]
    apply Fin.ext
    have := x.isLt
    simp [Fin.ofNat]
    omega
  | case3 x y =>
    intro si
    simp only [encodeChars, decodeLoop, decodeMap_encodeChar, List.nil_append, List.cons_append]
    simp only [quantumByte, quantumValue, Except.ok.injEq, List.cons.injEq, and_true]
    have := x.isLt
    have := y.isLt
    constructor <;> apply Fin.ext <;> simp [Fin.ofNat] <;> omega
  | case4 x y z rest ih =>
    intro si
    simp only [encodeChars, decodeLoop, decodeMap_encodeChar, List.nil_append, List.cons_append, ih]
    simp only [quantumByte, quantumValue, Except.ok.injEq, List.cons.injEq, and_true]
    have := x.isLt
    have := y.isLt
    have := z.isLt
    refine ⟨?_, ?_, ?_⟩ <;> apply Fin.ext <;> simp [Fin.ofNat] <;> omega

theorem SetBytes_append_single (buf : List Byte) (b : Byte) :
    SetBytes (buf ++ [b]) = SetBytes buf * 256 + b.val := by
  simp [SetBytes, List.foldl_append]

theorem SetBytes_bytesOfNatAux (fuel : Nat) : ∀ n, n ≤ fuel →
    SetBytes (bytesOfNatAux fuel n) = n := by
  induction fuel with
  | zero =>
    intro n hn
    have : n = 0 := by omega
    subst this
    rfl
  | succ fuel ih =>
    intro n hn
    unfold bytesOfNatAux
    split_ifs with h0
    · subst h0; rfl
    · rw [SetBytes_append_single, ih (n / 256) (by omega)]
      simp [Fin.ofNat]
      omega

theorem SetBytes_bytesOfNat (n : Nat) : SetBytes (bytesOfNat n) = n :=
  SetBytes_bytesOfNatAux n n (Nat.le_refl n)

theorem encodeChar_ne_pad_fin : ∀ v : Fin 64, (encodeChar v.val == '=') = false := by
  decide

theorem encodeChar_ne_pad (v : Nat) : (encodeChar v == '=') = false := by
  have h := encodeChar_ne_pad_fin ⟨v % 64, Nat.mod_lt _ (by decide)⟩
  simp only at h
  unfold encodeChar at h ⊢
  rw [Nat.mod_mod] at h
  exact h

theorem encodeChars_no_pad (b : List Byte) : ∀ c ∈ encodeChars b, (c == '=') = false := by
  induction b using encodeChars.induct with
  | case1 => intro c hc; simp [encodeChars] at hc
  | case2 x =>
    intro c hc
    simp only [encodeChars, List.mem_cons, List.mem_singleton, List.not_mem_nil, or_false] at hc
    rcases hc with h | h <;> rw [h] <;> exact encodeChar_ne_pad _
  | case3 x y =>
    intro c hc
    simp only [encodeChars, List.mem_cons, List.mem_singleton, List.not_mem_nil, or_false] at hc
    rcases hc with h | h | h <;> rw [h] <;> exact encodeChar_ne_pad _
  | case4 x y z rest ih =>
    intro c hc
    simp only [encodeChars, List.mem_cons] at hc
    rcases hc with h | h | h | h | h
    · rw [h]; exact encodeChar_ne_pad _
    · rw [h]; exact encodeChar_ne_pad _
    · rw [h]; exact encodeChar_ne_pad _
    · rw [h]; exact encodeChar_ne_pad _
    · exact ih c h

theorem rdropWhile_append_replicate (l : List Char) (k : Nat)
    (h : ∀ c ∈ l, (c == '=') = false) :
    (l ++ List.replicate k '=').rdropWhile (fun c => c == '=') = l := by
  induction k with
  | zero =>
    simp only [List.replicate_zero, List.append_nil]
    rw [List.rdropWhile_eq_self_iff]
    intro hl
    have := h _ (List.getLast_mem hl)
    simp [this]
  | succ k ih =>
    rw [List.replicate_succ', ← List.append_assoc, List.rdropWhile_concat_pos _ _ _ (by decide)]
    exact ih

theorem base64urlTrailingPadding_encode (b : List Byte) (k : Nat) :
    base64urlTrailingPadding (RawURLEncodeToString b ++ padding k) = .ok b := by
  unfold base64urlTrailingPadding RawURLDecodeString TrimRightEq RawURLEncodeToString padding
  simp only [String.data_append]
  rw [rdropWhile_append_replicate _ _ (encodeChars_no_pad b)]
  exact decodeLoop_encodeChars b 0

/-- C11: for every natural number `n`, every `e` with `e ≤ math.MaxInt` and
all numbers `k1`, `k2` of trailing `=`, an entry whose modulus and exponent
are the unpadded base64url encodings of the big-endian bytes of `n` and `e`
followed by that padding, both strings being non-empty, parses to the key
with `N = n` and `E = e`; and `base64urlTrailingPadding` returns `b` on the
encoding of every byte string `b` followed by any number of `=`. -/
theorem parseRSASigningKey_round_trip (n e k1 k2 : Nat) (j : jsonWebKey)
    (hmodulus : j.Modulus = RawURLEncodeToString (bytesOfNat n) ++ padding k1)
    (hexponent : j.Exponent = RawURLEncodeToString (bytesOfNat e) ++ padding k2)
    (hmodulus_ne : j.Modulus ≠ "") (hexponent_ne : j.Exponent ≠ "")
    (he : e ≤ MaxInt) :
    parseRSASigningKey j = .ok { N := n, E := (e : Int) } ∧
    ∀ (b : List Byte) (k : Nat),
      base64urlTrailingPadding (RawURLEncodeToString b ++ padding k) = .ok b := by
  refine ⟨?_, base64urlTrailingPadding_encode⟩
  have hdm : base64urlTrailingPadding j.Modulus = .ok (bytesOfNat n) := by
    rw [hmodulus]; exact base64urlTrailingPadding_encode _ _
  have hde : base64urlTrailingPadding j.Exponent = .ok (bytesOfNat e) := by
    rw [hexponent]; exact base64urlTrailingPadding_encode _ _
  rw [parseRSASigningKey_of_decoded j _ _ hexponent_ne hmodulus_ne hde hdm,
    SetBytes_bytesOfNat, SetBytes_bytesOfNat]
  have hlt : e < 2 ^ 64 := by
    unfold MaxInt at he
    omega
  rw [Nat.mod_eq_of_lt hlt, if_neg (by omega)]

/-- C11 at a concrete input: modulus 187 with two `=`, exponent 65537 with one. -/
theorem parseRSASigningKey_round_trip_witness :
    parseRSASigningKey (jwk "RSA" "k1" "uw==" "AQAB=") = .ok { N := 187, E := ((65537 : Nat) : Int) } ∧
    ∀ (b : List Byte) (k : Nat),
      base64urlTrailingPadding (RawURLEncodeToString b ++ padding k) = .ok b :=
  parseRSASigningKey_round_trip 187 65537 2 1 (jwk "RSA" "k1" "uw==" "AQAB=")
    (by decide) (by decide) (by decide) (by decide) (by decide)

/-! ## Policy documents (C12, C17, C18, C19) -/

theorem String_eq_of_data_eq (a b : String) (h : a.data = b.data) : a = b := by
  cases a
  cases b
  simp_all

theorem Sprintf_clientResourceFormat (r a id : String) :
    Sprintf clientResourceFormat [r, a, id]
      = "arn:aws:iot:" ++ r ++ ":" ++ a ++ ":" ++ "client/" ++ id := by
  apply String_eq_of_data_eq
  simp [Sprintf, clientResourceFormat, sprintfChars, String.data_append]

theorem Sprintf_deviceTasksTopicSubscribeFormat (r a id : String) :
    Sprintf deviceTasksTopicSubscribeFormat [r, a, id]
      = "arn:aws:iot:" ++ r ++ ":" ++ a ++ ":" ++ "topicfilter/" ++ ("v1/" ++ id ++ "/tasks") := by
  apply String_eq_of_data_eq
  simp [Sprintf, deviceTasksTopicSubscribeFormat, sprintfChars, String.data_append]

theorem Sprintf_deviceTasksTopicReceiveFormat (r a id : String) :
    Sprintf deviceTasksTopicReceiveFormat [r, a, id]
      = "arn:aws:iot:" ++ r ++ ":" ++ a ++ ":" ++ "topic/" ++ ("v1/" ++ id ++ "/tasks") := by
  apply String_eq_of_data_eq
  simp [Sprintf, deviceTasksTopicReceiveFormat, sprintfChars, String.data_append]

theorem Sprintf_deviceServiceBroadcastTopicSubscribeFormat (r a : String) :
    Sprintf deviceServiceBroadcastTopicSubscribeFormat [r, a]
      = "arn:aws:iot:" ++ r ++ ":" ++ a ++ ":" ++ "topicfilter/" ++ "v1/@devices/+" := by
  apply String_eq_of_data_eq
  simp [Sprintf, deviceServiceBroadcastTopicSubscribeFormat, sprintfChars, String.data_append]

theorem Sprintf_deviceServiceBroadcastTopicReceiveFormat (r a : String) :
    Sprintf deviceServiceBroadcastTopicReceiveFormat [r, a]
      = "arn:aws:iot:" ++ r ++ ":" ++ a ++ ":" ++ "topic/" ++ "v1/@devices/+" := by
  apply String_eq_of_data_eq
  simp [Sprintf, deviceServiceBroadcastTopicReceiveFormat, sprintfChars, String.data_append]

theorem Sprintf_cloudTaskResponsesTopic (r a : String) :
    Sprintf cloudTaskResponsesTopic [r, a]
      = "arn:aws:iot:" ++ r ++ ":" ++ a ++ ":" ++ "topic/" ++ "v1/@cloud/task_responses" := by
  apply String_eq_of_data_eq
  simp [Sprintf, cloudTaskResponsesTopic, sprintfChars, String.data_append]

theorem Sprintf_cloudServiceMessageTopic (r a : String) :
    Sprintf cloudServiceMessageTopic [r, a]
      = "arn:aws:iot:" ++ r ++ ":" ++ a ++ ":" ++ "topic/" ++ "v1/@cloud" := by
  apply String_eq_of_data_eq
  simp [Sprintf, cloudServiceMessageTopic, sprintfChars, String.data_append]

theorem Sprintf_taskResponsesTopicSubscribeFormat (r a shared : String) :
    Sprintf taskResponsesTopicSubscribeFormat [r, a, shared]
      = "arn:aws:iot:" ++ r ++ ":" ++ a ++ ":" ++ "topicfilter/"
          ++ (shared ++ "v1/@cloud/task_responses") := by
  apply String_eq_of_data_eq
  simp [Sprintf, taskResponsesTopicSubscribeFormat, sprintfChars, String.data_append]

theorem Sprintf_taskResponsesTopicReceiveFormat (r a shared : String) :
    Sprintf taskResponsesTopicReceiveFormat [r, a, shared]
      = "arn:aws:iot:" ++ r ++ ":" ++ a ++ ":" ++ "topic/"
          ++ (shared ++ "v1/@cloud/task_responses") := by
  apply String_eq_of_data_eq
  simp [Sprintf, taskResponsesTopicReceiveFormat, sprintfChars, String.data_append]

theorem Sprintf_serviceMessageTopicSubscribeFormat (r a shared : String) :
    Sprintf serviceMessageTopicSubscribeFormat [r, a, shared]
      = "arn:aws:iot:" ++ r ++ ":" ++ a ++ ":" ++ "topicfilter/" ++ (shared ++ "v1/@cloud") := by
  apply String_eq_of_data_eq
  simp [Sprintf, serviceMessageTopicSubscribeFormat, sprintfChars, String.data_append]

theorem Sprintf_serviceMessageTopicReceiveFormat (r a shared : String) :
    Sprintf serviceMessageTopicReceiveFormat [r, a, shared]
      = "arn:aws:iot:" ++ r ++ ":" ++ a ++ ":" ++ "topic/" ++ (shared ++ "v1/@cloud") := by
  apply String_eq_of_data_eq
  simp [Sprintf, serviceMessageTopicReceiveFormat, sprintfChars, String.data_append]

theorem Sprintf_deviceTasksTopic (r a : String) :
    Sprintf deviceTasksTopic [r, a]
      = "arn:aws:iot:" ++ r ++ ":" ++ a ++ ":" ++ "topic/" ++ "v1/*/tasks" := by
  apply String_eq_of_data_eq
  simp [Sprintf, deviceTasksTopic, sprintfChars, String.data_append]

theorem Sprintf_deviceBroadcastMessageTopic (r a : String) :
    Sprintf deviceBroadcastMessageTopic [r, a]
      = "arn:aws:iot:" ++ r ++ ":" ++ a ++ ":" ++ "topic/" ++ "v1/@devices/*" := by
  apply String_eq_of_data_eq
  simp [Sprintf, deviceBroadcastMessageTopic, sprintfChars, String.data_append]

/-- C12 (counterexample): the Publish resources made for the device `d1` and
for the device `d2` are the same two strings, and `d1` occurs in neither. -/
theorem device_publish_resources_same_for_two_devices :
    resourcesFor publishAction (createIotPolicyDocumentForDevice "us-west-2" "719809574944" "d1")
      = [ "arn:aws:iot:us-west-2:719809574944:topic/v1/@cloud/task_responses",
          "arn:aws:iot:us-west-2:719809574944:topic/v1/@cloud" ] ∧
    resourcesFor publishAction (createIotPolicyDocumentForDevice "us-west-2" "719809574944" "d1")
      = resourcesFor publishAction
          (createIotPolicyDocumentForDevice "us-west-2" "719809574944" "d2") ∧
    ("d1" : String) ≠ "d2" ∧
    ¬ "d1".data <:+: "arn:aws:iot:us-west-2:719809574944:topic/v1/@cloud".data := by
  refine ⟨by decide, by decide, by decide, by decide⟩

/-- C12 (amended): for every region, account and device id the Publish
statement allows exactly two resources, the task-response topic
`arn:aws:iot:<region>:<account>:topic/v1/@cloud/task_responses` and the
service-message topic `arn:aws:iot:<region>:<account>:topic/v1/@cloud`; the
device id is not substituted into either, so every device id yields the same
Publish resources. -/
theorem device_publish_resources (awsRegion awsAccount deviceID : String) :
    resourcesFor publishAction (createIotPolicyDocumentForDevice awsRegion awsAccount deviceID)
      = [ "arn:aws:iot:" ++ awsRegion ++ ":" ++ awsAccount ++ ":" ++ "topic/"
            ++ "v1/@cloud/task_responses",
          "arn:aws:iot:" ++ awsRegion ++ ":" ++ awsAccount ++ ":" ++ "topic/" ++ "v1/@cloud" ] ∧
    ∀ otherID : String,
      resourcesFor publishAction (createIotPolicyDocumentForDevice awsRegion awsAccount otherID)
        = resourcesFor publishAction
            (createIotPolicyDocumentForDevice awsRegion awsAccount deviceID) := by
  have h : ∀ id : String,
      resourcesFor publishAction (createIotPolicyDocumentForDevice awsRegion awsAccount id)
        = [ Sprintf cloudTaskResponsesTopic [awsRegion, awsAccount],
            Sprintf cloudServiceMessageTopic [awsRegion, awsAccount] ] := by
    intro id
    simp [resourcesFor, createIotPolicyDocumentForDevice, publishAction, connectAction,
      subscribeAction, receiveAction]
  refine ⟨?_, ?_⟩
  · rw [h, Sprintf_cloudTaskResponsesTopic, Sprintf_cloudServiceMessageTopic]
  · intro otherID
    rw [h, h]

/-- C17: for every region, account and device id,
`createIotPolicyDocumentForDevice` returns one document with four `Allow`
statements whose actions are, in order, Connect, Subscribe, Receive and
Publish; Connect allows the single resource
`arn:aws:iot:<region>:<account>:client/<id>` and Subscribe exactly the two
resources `arn:aws:iot:<region>:<account>:topicfilter/v1/<id>/tasks` and
`arn:aws:iot:<region>:<account>:topicfilter/v1/@devices/+`. -/
theorem device_policy_shape (awsRegion awsAccount deviceID : String) :
    ∃ connect subscribe receive publish : IAMPolicyStatement,
      createIotPolicyDocumentForDevice awsRegion awsAccount deviceID
        = [{ Version := "2012-10-17", Statement := [connect, subscribe, receive, publish] }] ∧
      connect.Effect = "Allow" ∧ subscribe.Effect = "Allow" ∧
      receive.Effect = "Allow" ∧ publish.Effect = "Allow" ∧
      connect.Action = ["iot:Connect"] ∧ subscribe.Action = ["iot:Subscribe"] ∧
      receive.Action = ["iot:Receive"] ∧ publish.Action = ["iot:Publish"] ∧
      connect.Resource
        = ["arn:aws:iot:" ++ awsRegion ++ ":" ++ awsAccount ++ ":" ++ "client/" ++ deviceID] ∧
      subscribe.Resource
        = [ "arn:aws:iot:" ++ awsRegion ++ ":" ++ awsAccount ++ ":" ++ "topicfilter/"
              ++ ("v1/" ++ deviceID ++ "/tasks"),
            "arn:aws:iot:" ++ awsRegion ++ ":" ++ awsAccount ++ ":" ++ "topicfilter/"
              ++ "v1/@devices/+" ] := by
  refine ⟨_, _, _, _, rfl, rfl, rfl, rfl, rfl, rfl, rfl, rfl, rfl, ?_, ?_⟩
  · simp only [Sprintf_clientResourceFormat]
  · simp only [Sprintf_deviceTasksTopicSubscribeFormat,
      Sprintf_deviceServiceBroadcastTopicSubscribeFormat]

/-- C18: for every region, account and client identity the Subscribe
statement of `createIotPolicyDocumentForScheduler` allows exactly four
patterns, the task-response and the service-message topic filter, each once
as it is and once with `$share/krypton/` directly after `topicfilter/`; the
Publish statement allows exactly `...:topic/v1/*/tasks` and
`...:topic/v1/@devices/*`, the same for every client identity. -/
theorem scheduler_subscribe_and_publish_resources (awsRegion awsAccount clientID : String) :
    resourcesFor subscribeAction
        (createIotPolicyDocumentForScheduler awsRegion awsAccount clientID)
      = [ "arn:aws:iot:" ++ awsRegion ++ ":" ++ awsAccount ++ ":" ++ "topicfilter/"
            ++ "v1/@cloud/task_responses",
          "arn:aws:iot:" ++ awsRegion ++ ":" ++ awsAccount ++ ":" ++ "topicfilter/"
            ++ ("$share/krypton/" ++ "v1/@cloud/task_responses"),
          "arn:aws:iot:" ++ awsRegion ++ ":" ++ awsAccount ++ ":" ++ "topicfilter/"
            ++ "v1/@cloud",
          "arn:aws:iot:" ++ awsRegion ++ ":" ++ awsAccount ++ ":" ++ "topicfilter/"
            ++ ("$share/krypton/" ++ "v1/@cloud") ] ∧
    resourcesFor publishAction
        (createIotPolicyDocumentForScheduler awsRegion awsAccount clientID)
      = [ "arn:aws:iot:" ++ awsRegion ++ ":" ++ awsAccount ++ ":" ++ "topic/" ++ "v1/*/tasks",
          "arn:aws:iot:" ++ awsRegion ++ ":" ++ awsAccount ++ ":" ++ "topic/"
            ++ "v1/@devices/*" ] ∧
    ∀ otherID : String,
      resourcesFor publishAction
          (createIotPolicyDocumentForScheduler awsRegion awsAccount otherID)
        = resourcesFor publishAction
            (createIotPolicyDocumentForScheduler awsRegion awsAccount clientID) := by
  have hpub : ∀ id : String,
      resourcesFor publishAction (createIotPolicyDocumentForScheduler awsRegion awsAccount id)
        = [ Sprintf deviceTasksTopic [awsRegion, awsAccount],
            Sprintf deviceBroadcastMessageTopic [awsRegion, awsAccount] ] := by
    intro id
    simp [resourcesFor, createIotPolicyDocumentForScheduler, publishAction, connectAction,
      subscribeAction, receiveAction]
  refine ⟨?_, ?_, ?_⟩
  · simp [resourcesFor, createIotPolicyDocumentForScheduler, publishAction, connectAction,
      subscribeAction, receiveAction, Sprintf_taskResponsesTopicSubscribeFormat,
      Sprintf_serviceMessageTopicSubscribeFormat, sharedSubscriptionFormat]
  · rw [hpub, Sprintf_deviceTasksTopic, Sprintf_deviceBroadcastMessageTopic]
  · intro otherID
    rw [hpub, hpub]

/-- C19: in the device policy and in the scheduler policy the Receive
statement has as many resources as the Subscribe statement (two and four):
there is a list of topic names such that the Subscribe resources are
`arn:aws:iot:<region>:<account>:topicfilter/<name>` and the Receive resources
`arn:aws:iot:<region>:<account>:topic/<name>` for the names of the list, in
the same order. -/
theorem receive_mirrors_subscribe (awsRegion awsAccount identifier : String) :
    (∃ names : List String, names.length = 2 ∧
      resourcesFor subscribeAction
          (createIotPolicyDocumentForDevice awsRegion awsAccount identifier)
        = names.map (fun name =>
            "arn:aws:iot:" ++ awsRegion ++ ":" ++ awsAccount ++ ":" ++ "topicfilter/" ++ name) ∧
      resourcesFor receiveAction
          (createIotPolicyDocumentForDevice awsRegion awsAccount identifier)
        = names.map (fun name =>
            "arn:aws:iot:" ++ awsRegion ++ ":" ++ awsAccount ++ ":" ++ "topic/" ++ name)) ∧
    (∃ names : List String, names.length = 4 ∧
      resourcesFor subscribeAction
          (createIotPolicyDocumentForScheduler awsRegion awsAccount identifier)
        = names.map (fun name =>
            "arn:aws:iot:" ++ awsRegion ++ ":" ++ awsAccount ++ ":" ++ "topicfilter/" ++ name) ∧
      resourcesFor receiveAction
          (createIotPolicyDocumentForScheduler awsRegion awsAccount identifier)
        = names.map (fun name =>
            "arn:aws:iot:" ++ awsRegion ++ ":" ++ awsAccount ++ ":" ++ "topic/" ++ name)) := by
  refine ⟨⟨["v1/" ++ identifier ++ "/tasks", "v1/@devices/+"], rfl, ?_, ?_⟩,
    ⟨["v1/@cloud/task_responses", "$share/krypton/" ++ "v1/@cloud/task_responses",
      "v1/@cloud", "$share/krypton/" ++ "v1/@cloud"], rfl, ?_, ?_⟩⟩
  · simp [resourcesFor, createIotPolicyDocumentForDevice, publishAction, connectAction,
      subscribeAction, receiveAction, Sprintf_deviceTasksTopicSubscribeFormat,
      Sprintf_deviceServiceBroadcastTopicSubscribeFormat]
  · simp [resourcesFor, createIotPolicyDocumentForDevice, publishAction, connectAction,
      subscribeAction, receiveAction, Sprintf_deviceTasksTopicReceiveFormat,
      Sprintf_deviceServiceBroadcastTopicReceiveFormat]
  · simp [resourcesFor, createIotPolicyDocumentForScheduler, publishAction, connectAction,
      subscribeAction, receiveAction, Sprintf_taskResponsesTopicSubscribeFormat,
      Sprintf_serviceMessageTopicSubscribeFormat, sharedSubscriptionFormat]
  · simp [resourcesFor, createIotPolicyDocumentForScheduler, publishAction, connectAction,
      subscribeAction, receiveAction, Sprintf_taskResponsesTopicReceiveFormat,
      Sprintf_serviceMessageTopicReceiveFormat, sharedSubscriptionFormat]

/-! ## Authenticated decisions (C13, C14, C16) -/

theorem principalDecision_authenticated (awsRegion awsAccount : String)
    (claims : DstsTokenClaims) (clientID : String)
    (h : (principalDecision awsRegion awsAccount claims clientID).1.IsAuthenticated = true) :
    (claims.TokenType = "device" ∧ claims.Subject = clientID ∧
      principalDecision awsRegion awsAccount claims clientID
        = (successDeviceAuthResponse awsRegion awsAccount claims.Subject, none)) ∨
    (claims.TokenType = "app" ∧ claims.Subject = schedulerAppID ∧
      principalDecision awsRegion awsAccount claims clientID
        = (successAppAuthResponse awsRegion awsAccount clientID, none)) := by
  unfold principalDecision at h ⊢
  split_ifs at h ⊢ with h1 h2 h3 h4 h5
  · simp [failedAuthResponse] at h
  · left
    exact ⟨h1, by simpa using h2, rfl⟩
  · simp [failedAuthResponse] at h
  · simp [failedAuthResponse] at h
  · right
    exact ⟨h3, by simpa using h4, rfl⟩
  · simp [failedAuthResponse] at h

theorem handler_authenticated (E : Env) (ctx : Option LambdaContext)
    (event : IoTCoreCustomAuthorizerRequest) (st st1 : State)
    (response : IoTCoreCustomAuthorizerResponse) (err : Option GoError)
    (h : IotDeviceAuthenticationHandler E ctx event st = returned ((response, err), st1))
    (hauth : response.IsAuthenticated = true) :
    ∃ lambdaCtx awsRegion awsAccount token clientID claims,
      ctx = some lambdaCtx ∧
      arnRegionAccount lambdaCtx.InvokedFunctionArn = returned (awsRegion, awsAccount) ∧
      credentials E event = returned (.ok (token, clientID)) ∧
      token ≠ "" ∧
      validateDstsAccessToken E token st = returned (.ok claims, st1) ∧
      principalDecision awsRegion awsAccount claims clientID = (response, err) := by
  have hfailed : ∀ (e : Option GoError) (s : State),
      returned ((failedAuthResponse, e), s) = returned ((response, err), st1) → False := by
    intro e s he
    simp only [Outcome.returned.injEq, Prod.mk.injEq] at he
    rw [← he.1.1] at hauth
    simp [failedAuthResponse] at hauth
  have hempty : ∀ (e : Option GoError) (s : State),
      returned ((emptyResponse, e), s) = returned ((response, err), st1) → False := by
    intro e s he
    simp only [Outcome.returned.injEq, Prod.mk.injEq] at he
    rw [← he.1.1] at hauth
    simp [emptyResponse] at hauth
  unfold IotDeviceAuthenticationHandler at h
  split at h
  · exact absurd h (hfailed _ _)
  · split at h
    · simp at h
    · split at h
      · exact absurd h (hfailed _ _)
      · split at h
        · simp at h
        · rename_i exitResponse exitErr hcred
          have hexit := credentials_exit E event exitResponse exitErr hcred
          rw [hexit] at h
          exact absurd h (hempty _ _)
        · split at h
          · exact absurd h (hempty _ _)
          · split at h
            · simp at h
            · exact absurd h (hfailed _ _)
            · rename_i lambdaCtx _ awsRegion awsAccount harn _ _ _ token clientID hcred htoken _
                claims st2 hval
              simp only [Outcome.returned.injEq, Prod.mk.injEq] at h
              refine ⟨lambdaCtx, awsRegion, awsAccount, token, clientID, claims, rfl, harn,
                hcred, htoken, ?_, h.1⟩
              rw [← h.2]
              exact hval

/-- C14: when the event yields a non-empty credential and a client identity,
validation succeeds, and the token type of the claims is neither `device`
nor `app`, the handler returns the failed response with `ErrUnauthorized`,
whatever the subject and the client identity are. -/
theorem unknown_token_type_denied
    (E : Env) (lambdaCtx : LambdaContext) (event : IoTCoreCustomAuthorizerRequest)
    (st st1 : State) (awsRegion awsAccount token c : String) (claims : DstsTokenClaims)
    (harn : arnRegionAccount lambdaCtx.InvokedFunctionArn = returned (awsRegion, awsAccount))
    (hcred : credentials E event = returned (.ok (token, c)))
    (htoken : token ≠ "")
    (hval : validateDstsAccessToken E token st = returned (.ok claims, st1))
    (hdevice : claims.TokenType ≠ "device") (happ : claims.TokenType ≠ "app") :
    IotDeviceAuthenticationHandler E (some lambdaCtx) event st
      = returned ((failedAuthResponse, some ErrUnauthorized), st1) := by
  simp [IotDeviceAuthenticationHandler, harn, marshalIndentError, hcred, htoken, hval,
    principalDecision, TokenTypeDeviceAccessToken, TokenTypeAppAccessToken, hdevice, happ]

/-- C14 at a concrete input: a token whose type is `Device`, with a capital. -/
theorem unknown_token_type_denied_witness :
    IotDeviceAuthenticationHandler (exampleEnv (.transportError (library "timeout")) ⟨[]⟩)
        (some ⟨exampleArn⟩) (mqttEvent "device_token=odd" "d1") stateWithK1
      = returned ((failedAuthResponse, some ErrUnauthorized), stateWithK1) :=
  unknown_token_type_denied (exampleEnv (.transportError (library "timeout")) ⟨[]⟩)
    ⟨exampleArn⟩ (mqttEvent "device_token=odd" "d1") stateWithK1 stateWithK1
    "us-west-2" "719809574944" "odd" "d1" (claimsOf "HP Device Token Service" "d1" "Device")
    (by rfl) (by rfl) (by decide) (by rfl) (by decide) (by decide)

theorem ReplaceHyphens_data (s : String) :
    (ReplaceHyphens s).data = s.data.filter (fun c => decide (c ≠ '-')) ∧
    '-' ∉ (ReplaceHyphens s).data := by
  unfold ReplaceHyphens
  refine ⟨?_, ?_⟩
  · show List.filter (fun c => c != '-') s.data = List.filter (fun c => decide (c ≠ '-')) s.data
    congr 1
    funext c
    by_cases hc : c = '-' <;> simp [hc]
  · simp [List.mem_filter]

/-- C16: for every response the handler returns with `IsAuthenticated` true,
`PrincipalID` is the source identifier, which is the token subject when the
token type is `device` and the client identity taken from the event when it
is `app`, with the characters `-` filtered out and the other characters kept
in order; `PrincipalID` contains no `-`. -/
theorem authenticated_principal_id_strips_hyphens (E : Env) (ctx : Option LambdaContext)
    (event : IoTCoreCustomAuthorizerRequest) (st st1 : State)
    (response : IoTCoreCustomAuthorizerResponse) (err : Option GoError)
    (h : IotDeviceAuthenticationHandler E ctx event st = returned ((response, err), st1))
    (hauth : response.IsAuthenticated = true) :
    ∃ token clientID claims source,
      credentials E event = returned (.ok (token, clientID)) ∧
      validateDstsAccessToken E token st = returned (.ok claims, st1) ∧
      ((claims.TokenType = "device" ∧ source = claims.Subject) ∨
        (claims.TokenType = "app" ∧ source = clientID)) ∧
      response.PrincipalID.data = source.data.filter (fun c => decide (c ≠ '-')) ∧
      '-' ∉ response.PrincipalID.data := by
  obtain ⟨lambdaCtx, awsRegion, awsAccount, token, clientID, claims, _, _, hcred, _, hval, hpd⟩ :=
    handler_authenticated E ctx event st st1 response err h hauth
  have hauth2 : (principalDecision awsRegion awsAccount claims clientID).1.IsAuthenticated
      = true := by
    rw [hpd]
    exact hauth
  rcases principalDecision_authenticated awsRegion awsAccount claims clientID hauth2 with
    ⟨htyp, _, hdec⟩ | ⟨htyp, _, hdec⟩
  · have hresp : response = successDeviceAuthResponse awsRegion awsAccount claims.Subject := by
      rw [hdec] at hpd
      exact (congrArg Prod.fst hpd).symm
    refine ⟨token, clientID, claims, claims.Subject, hcred, hval, Or.inl ⟨htyp, rfl⟩, ?_, ?_⟩
    · rw [hresp]
      exact (ReplaceHyphens_data claims.Subject).1
    · rw [hresp]
      exact (ReplaceHyphens_data claims.Subject).2
  · have hresp : response = successAppAuthResponse awsRegion awsAccount clientID := by
      rw [hdec] at hpd
      exact (congrArg Prod.fst hpd).symm
    refine ⟨token, clientID, claims, clientID, hcred, hval, Or.inr ⟨htyp, rfl⟩, ?_, ?_⟩
    · rw [hresp]
      exact (ReplaceHyphens_data clientID).1
    · rw [hresp]
      exact (ReplaceHyphens_data clientID).2

/-- C16 at a concrete input: the scheduler token with a client id that
contains hyphens. -/
theorem authenticated_principal_id_strips_hyphens_witness :
    ∃ token clientID claims source,
      credentials (exampleEnv (.transportError (library "timeout")) ⟨[]⟩)
          (mqttEvent "device_token=app" "bebc5cbf-acc0-431f-8c4e-c582dc2489e2-abc123")
        = returned (.ok (token, clientID)) ∧
      validateDstsAccessToken (exampleEnv (.transportError (library "timeout")) ⟨[]⟩) token
          stateWithK1 = returned (.ok claims, stateWithK1) ∧
      ((claims.TokenType = "device" ∧ source = claims.Subject) ∨
        (claims.TokenType = "app" ∧ source = clientID)) ∧
      (successAppAuthResponse "us-west-2" "719809574944"
          "bebc5cbf-acc0-431f-8c4e-c582dc2489e2-abc123").PrincipalID.data
        = source.data.filter (fun c => decide (c ≠ '-')) ∧
      '-' ∉ (successAppAuthResponse "us-west-2" "719809574944"
          "bebc5cbf-acc0-431f-8c4e-c582dc2489e2-abc123").PrincipalID.data :=
  authenticated_principal_id_strips_hyphens
    (exampleEnv (.transportError (library "timeout")) ⟨[]⟩) exampleCtx
    (mqttEvent "device_token=app" "bebc5cbf-acc0-431f-8c4e-c582dc2489e2-abc123")
    stateWithK1 stateWithK1
    (successAppAuthResponse "us-west-2" "719809574944"
      "bebc5cbf-acc0-431f-8c4e-c582dc2489e2-abc123") none (by rfl) (by rfl)

/-! ## Wildcards in the resource patterns (C13) -/

theorem filter_wildcards_sprintfChars (fmt : List Char) (args : List String)
    (h : ∀ a ∈ args, wildcards a = []) :
    (sprintfChars fmt args).filter isWildcard = fmt.filter isWildcard := by
  induction fmt, args using sprintfChars.induct with
  | case1 fmt a args ih =>
    have ha : a.data.filter isWildcard = [] := h a (List.mem_cons_self _ _)
    have ih2 := ih (fun b hb => h b (List.mem_cons_of_mem _ hb))
    simp [sprintfChars, List.filter_append, ha, ih2, isWildcard]
  | case2 fmt ih =>
    have ih2 := ih h
    simp [sprintfChars, List.filter_append, ih2, isWildcard]
  | case3 c fmt args hne1 hne2 ih =>
    have ih2 := ih h
    rw [sprintfChars]
    · simp [List.filter_cons, ih2]
    · exact hne1
    · exact hne2
  | case4 args => simp [sprintfChars]

theorem wildcards_Sprintf (format : String) (args : List String)
    (h : ∀ a ∈ args, wildcards a = []) :
    wildcards (Sprintf format args) = wildcards format := by
  unfold wildcards Sprintf
  exact filter_wildcards_sprintfChars format.data args h

theorem device_policy_wildcards (awsRegion awsAccount deviceID : String)
    (hr : wildcards awsRegion = []) (ha : wildcards awsAccount = [])
    (hi : wildcards deviceID = []) :
    (policyResources (createIotPolicyDocumentForDevice awsRegion awsAccount deviceID)).map
        wildcards
      = deviceTemplates.map wildcards := by
  have h3 : ∀ a ∈ [awsRegion, awsAccount, deviceID], wildcards a = [] := by
    intro a hmem
    simp only [List.mem_cons, List.mem_singleton, List.not_mem_nil, or_false] at hmem
    rcases hmem with h | h | h <;> rw [h] <;> assumption
  have h2 : ∀ a ∈ [awsRegion, awsAccount], wildcards a = [] := by
    intro a hmem
    simp only [List.mem_cons, List.mem_singleton, List.not_mem_nil, or_false] at hmem
    rcases hmem with h | h <;> rw [h] <;> assumption
  simp [policyResources, createIotPolicyDocumentForDevice, deviceTemplates,
    wildcards_Sprintf _ _ h3, wildcards_Sprintf _ _ h2]

theorem scheduler_policy_wildcards (awsRegion awsAccount clientID : String)
    (hr : wildcards awsRegion = []) (ha : wildcards awsAccount = [])
    (hi : wildcards clientID = []) :
    (policyResources (createIotPolicyDocumentForScheduler awsRegion awsAccount clientID)).map
        wildcards
      = schedulerTemplates.map wildcards := by
  have h3 : ∀ a ∈ [awsRegion, awsAccount, clientID], wildcards a = [] := by
    intro a hmem
    simp only [List.mem_cons, List.mem_singleton, List.not_mem_nil, or_false] at hmem
    rcases hmem with h | h | h <;> rw [h] <;> assumption
  have h2 : ∀ a ∈ [awsRegion, awsAccount], wildcards a = [] := by
    intro a hmem
    simp only [List.mem_cons, List.mem_singleton, List.not_mem_nil, or_false] at hmem
    rcases hmem with h | h <;> rw [h] <;> assumption
  have hempty : ∀ a ∈ [awsRegion, awsAccount, ""], wildcards a = [] := by
    intro a hmem
    simp only [List.mem_cons, List.mem_singleton, List.not_mem_nil, or_false] at hmem
    rcases hmem with h | h | h <;> rw [h] <;> first | assumption | decide
  have hshared : ∀ a ∈ [awsRegion, awsAccount, sharedSubscriptionFormat], wildcards a = [] := by
    intro a hmem
    simp only [List.mem_cons, List.mem_singleton, List.not_mem_nil, or_false] at hmem
    rcases hmem with h | h | h <;> rw [h] <;> first | assumption | decide
  simp [policyResources, createIotPolicyDocumentForScheduler, schedulerTemplates,
    wildcards_Sprintf _ _ h3, wildcards_Sprintf _ _ h2, wildcards_Sprintf _ _ hempty,
    wildcards_Sprintf _ _ hshared]

/-- C13 (counterexample): the scheduler token presented with the client id
`bebc5cbf-acc0-431f-8c4e-c582dc2489e2-*` is authenticated, and the Connect
resource of the returned policy ends in that client id: it contains a `*`
although its template `clientResourceFormat` contains no wildcard. -/
theorem authenticated_client_id_adds_wildcard :
    IotDeviceAuthenticationHandler (exampleEnv (.transportError (library "timeout")) ⟨[]⟩)
        exampleCtx (mqttEvent "device_token=app" "bebc5cbf-acc0-431f-8c4e-c582dc2489e2-*")
        stateWithK1
      = returned ((successAppAuthResponse "us-west-2" "719809574944"
          "bebc5cbf-acc0-431f-8c4e-c582dc2489e2-*", none), stateWithK1) ∧
    (successAppAuthResponse "us-west-2" "719809574944"
        "bebc5cbf-acc0-431f-8c4e-c582dc2489e2-*").IsAuthenticated = true ∧
    (policyResources (createIotPolicyDocumentForScheduler "us-west-2" "719809574944"
        "bebc5cbf-acc0-431f-8c4e-c582dc2489e2-*")).head?
      = some "arn:aws:iot:us-west-2:719809574944:client/bebc5cbf-acc0-431f-8c4e-c582dc2489e2-*" ∧
    schedulerTemplates.head? = some clientResourceFormat ∧
    wildcards "arn:aws:iot:us-west-2:719809574944:client/bebc5cbf-acc0-431f-8c4e-c582dc2489e2-*"
      = ['*'] ∧
    wildcards clientResourceFormat = [] := by
  refine ⟨rfl, by decide, by decide, by decide, by decide, by decide⟩

/-- C13 (amended): for every response the handler returns with
`IsAuthenticated` true, the policy is the device policy made from the region
and account of the ARN and the token subject (token type `device`) or the
scheduler policy made from the region, the account and the client identity
of the event (token type `app`); each resource is its format with these
strings substituted, and when the region, the account and the identifier
contain none of `*`, `+`, `#`, every resource has exactly the wildcard
characters of its format, in the same order. -/
theorem authenticated_policy_wildcards (E : Env) (ctx : Option LambdaContext)
    (event : IoTCoreCustomAuthorizerRequest) (st st1 : State)
    (response : IoTCoreCustomAuthorizerResponse) (err : Option GoError)
    (h : IotDeviceAuthenticationHandler E ctx event st = returned ((response, err), st1))
    (hauth : response.IsAuthenticated = true) :
    ∃ lambdaCtx awsRegion awsAccount token clientID claims,
      ctx = some lambdaCtx ∧
      arnRegionAccount lambdaCtx.InvokedFunctionArn = returned (awsRegion, awsAccount) ∧
      credentials E event = returned (.ok (token, clientID)) ∧
      validateDstsAccessToken E token st = returned (.ok claims, st1) ∧
      ((claims.TokenType = "device" ∧
          response.PolicyDocuments
            = some (createIotPolicyDocumentForDevice awsRegion awsAccount claims.Subject) ∧
          (wildcards awsRegion = [] → wildcards awsAccount = [] →
            wildcards claims.Subject = [] →
            (policyResources
                (createIotPolicyDocumentForDevice awsRegion awsAccount claims.Subject)).map
              wildcards = deviceTemplates.map wildcards)) ∨
        (claims.TokenType = "app" ∧
          response.PolicyDocuments
            = some (createIotPolicyDocumentForScheduler awsRegion awsAccount clientID) ∧
          (wildcards awsRegion = [] → wildcards awsAccount = [] → wildcards clientID = [] →
            (policyResources
                (createIotPolicyDocumentForScheduler awsRegion awsAccount clientID)).map
              wildcards = schedulerTemplates.map wildcards))) := by
  obtain ⟨lambdaCtx, awsRegion, awsAccount, token, clientID, claims, hctx, harn, hcred, _, hval,
    hpd⟩ := handler_authenticated E ctx event st st1 response err h hauth
  have hauth2 : (principalDecision awsRegion awsAccount claims clientID).1.IsAuthenticated
      = true := by
    rw [hpd]
    exact hauth
  refine ⟨lambdaCtx, awsRegion, awsAccount, token, clientID, claims, hctx, harn, hcred, hval, ?_⟩
  rcases principalDecision_authenticated awsRegion awsAccount claims clientID hauth2 with
    ⟨htyp, _, hdec⟩ | ⟨htyp, _, hdec⟩
  · have hresp : response = successDeviceAuthResponse awsRegion awsAccount claims.Subject := by
      rw [hdec] at hpd
      exact (congrArg Prod.fst hpd).symm
    left
    refine ⟨htyp, ?_, device_policy_wildcards awsRegion awsAccount claims.Subject⟩
    rw [hresp]
    rfl
  · have hresp : response = successAppAuthResponse awsRegion awsAccount clientID := by
      rw [hdec] at hpd
      exact (congrArg Prod.fst hpd).symm
    right
    refine ⟨htyp, ?_, scheduler_policy_wildcards awsRegion awsAccount clientID⟩
    rw [hresp]
    rfl

/-- C13 (amended) at a concrete input: the device token for `d1` presented
with client id `d1`. -/
theorem authenticated_policy_wildcards_witness :
    ∃ lambdaCtx awsRegion awsAccount token clientID claims,
      exampleCtx = some lambdaCtx ∧
      arnRegionAccount lambdaCtx.InvokedFunctionArn = returned (awsRegion, awsAccount) ∧
      credentials (exampleEnv (.transportError (library "timeout")) ⟨[]⟩)
          (mqttEvent "device_token=dev" "d1") = returned (.ok (token, clientID)) ∧
      validateDstsAccessToken (exampleEnv (.transportError (library "timeout")) ⟨[]⟩) token
          stateWithK1 = returned (.ok claims, stateWithK1) ∧
      ((claims.TokenType = "device" ∧
          (successDeviceAuthResponse "us-west-2" "719809574944" "d1").PolicyDocuments
            = some (createIotPolicyDocumentForDevice awsRegion awsAccount claims.Subject) ∧
          (wildcards awsRegion = [] → wildcards awsAccount = [] →
            wildcards claims.Subject = [] →
            (policyResources
                (createIotPolicyDocumentForDevice awsRegion awsAccount claims.Subject)).map
              wildcards = deviceTemplates.map wildcards)) ∨
        (claims.TokenType = "app" ∧
          (successDeviceAuthResponse "us-west-2" "719809574944" "d1").PolicyDocuments
            = some (createIotPolicyDocumentForScheduler awsRegion awsAccount clientID) ∧
          (wildcards awsRegion = [] → wildcards awsAccount = [] → wildcards clientID = [] →
            (policyResources
                (createIotPolicyDocumentForScheduler awsRegion awsAccount clientID)).map
              wildcards = schedulerTemplates.map wildcards))) :=
  authenticated_policy_wildcards (exampleEnv (.transportError (library "timeout")) ⟨[]⟩)
    exampleCtx (mqttEvent "device_token=dev" "d1") stateWithK1 stateWithK1
    (successDeviceAuthResponse "us-west-2" "719809574944" "d1") none (by rfl) (by rfl)

/-! ## Entries that are not RSA keys (C15) -/

theorem storeKeys_removeNonRSA (keys : List (Option jsonWebKey)) :
    ∀ table, storeKeys (removeNonRSA keys) table = storeKeys keys table := by
  induction keys with
  | nil => intro table; rfl
  | cons entry rest ih =>
    intro table
    cases entry with
    | none => simp [removeNonRSA, storeKeys]
    | some key =>
      by_cases hk : key.KeyType = ktyRSA
      · have hfilter : removeNonRSA (some key :: rest) = some key :: removeNonRSA rest := by
          simp [removeNonRSA, hk]
        rw [hfilter]
        simp only [storeKeys, hk, if_true]
        cases parseRSASigningKey key with
        | error err => rfl
        | ok publicKey => exact ih _
      · have hfilter : removeNonRSA (some key :: rest) = removeNonRSA rest := by
          simp [removeNonRSA, hk]
        rw [hfilter]
        simp only [storeKeys, hk, if_false]
        exact ih _

theorem storeKeys_origin (keys : List (Option jsonWebKey)) :
    ∀ (table table1 : KeyTable) (err : Option GoError),
      storeKeys keys table = returned (err, table1) →
      ∀ kid publicKey, table1 kid = some publicKey →
        table kid = some publicKey ∨
        ∃ key, some key ∈ keys ∧ key.KeyType = ktyRSA ∧ key.ID = kid := by
  induction keys with
  | nil =>
    intro table table1 err h kid publicKey hk
    simp only [storeKeys, Outcome.returned.injEq, Prod.mk.injEq] at h
    rw [← h.2] at hk
    exact Or.inl hk
  | cons entry rest ih =>
    intro table table1 err h kid publicKey hk
    cases entry with
    | none => simp [storeKeys] at h
    | some key =>
      by_cases hkty : key.KeyType = ktyRSA
      · simp only [storeKeys, hkty, if_true] at h
        cases hparse : parseRSASigningKey key with
        | error e =>
          rw [hparse] at h
          simp only [Outcome.returned.injEq, Prod.mk.injEq] at h
          rw [← h.2] at hk
          exact Or.inl hk
        | ok parsed =>
          rw [hparse] at h
          rcases ih _ _ _ h kid publicKey hk with hset | ⟨k, hmem, hk1, hk2⟩
          · by_cases hid : kid = key.ID
            · exact Or.inr ⟨key, List.mem_cons_self _ _, hkty, hid.symm⟩
            · left
              simpa [KeyTable.set, hid] using hset
          · exact Or.inr ⟨k, List.mem_cons_of_mem _ hmem, hk1, hk2⟩
      · simp only [storeKeys, hkty, if_false] at h
        rcases ih _ _ _ h kid publicKey hk with hset | ⟨k, hmem, hk1, hk2⟩
        · exact Or.inl hset
        · exact Or.inr ⟨k, List.mem_cons_of_mem _ hmem, hk1, hk2⟩

theorem jsonUnmarshal_withoutNonRSA (E : Env) (data : List Byte) :
    jsonUnmarshal (withoutNonRSA E) data =
      match jsonUnmarshal E data with
      | .error err => .error err
      | .ok doc => .ok { Keys := removeNonRSA doc.Keys } := by
  unfold jsonUnmarshal withoutNonRSA
  split_ifs
  · rfl
  · rfl

theorem getJWKSSigningKey_withoutNonRSA (E : Env) (url : String) (st : State) :
    getJWKSSigningKey (withoutNonRSA E) url st = getJWKSSigningKey E url st := by
  have hfetch : getKeysFromServer (withoutNonRSA E) url st = getKeysFromServer E url st := rfl
  unfold getJWKSSigningKey
  rw [hfetch]
  split
  · rfl
  · rw [jsonUnmarshal_withoutNonRSA]
    cases jsonUnmarshal E _ with
    | error err => rfl
    | ok doc =>
      simp only
      rw [storeKeys_removeNonRSA]

/-- C15 (counterexample): the document has the RSA entry `a` and an entry of
key type `EC` with the same key id `a`.  The refresh succeeds and the key id
of the non-RSA entry is in the resulting table. -/
theorem non_rsa_kid_in_table_when_shared_with_rsa_entry :
    ∃ st1,
      getJWKSSigningKey
          (exampleEnv (.response 200 [123, 125] none)
            ⟨[some (jwk "RSA" "a" "AQAB" "AQAB"), some (jwk "EC" "a" "" "")]⟩)
          "https://dsts.example/jwks" stateEmpty
        = returned (none, st1) ∧
      (jwk "EC" "a" "" "").KeyType ≠ "RSA" ∧
      st1.signingKeyTable (jwk "EC" "a" "" "").ID = some { N := 65537, E := 65537 } := by
  refine ⟨_, rfl, by decide, by decide⟩

/-- C15 (amended): when the fetch gives a body that decodes to the document
`doc`, `getJWKSSigningKey` has the same result (error, table and fetch count,
or panic) in the environment whose decoder yields `doc` without its non-RSA
entries, so these entries are skipped and cause no error whatever their
fields hold; and every key id of the resulting table is the key id of an RSA
entry of `doc`. -/
theorem non_rsa_entries_are_skipped (E : Env) (url : String) (st : State)
    (body : List Byte) (doc : rawJWKS)
    (hfetch : E.httpGet url st.fetchAttempts = .response 200 body none)
    (hdoc : jsonUnmarshal E body = .ok doc) :
    jsonUnmarshal (withoutNonRSA E) body = .ok { Keys := removeNonRSA doc.Keys } ∧
    getJWKSSigningKey (withoutNonRSA E) url st = getJWKSSigningKey E url st ∧
    getJWKSSigningKey E url st =
      (match storeKeys (removeNonRSA doc.Keys) emptyTable with
        | panicked => panicked
        | returned (err, table) =>
          returned (err, { st with fetchAttempts := st.fetchAttempts + 1,
                                   signingKeyTable := table })) ∧
    ∀ err st1, getJWKSSigningKey E url st = returned (err, st1) →
      ∀ kid publicKey, st1.signingKeyTable kid = some publicKey →
        ∃ key, some key ∈ doc.Keys ∧ key.KeyType = "RSA" ∧ key.ID = kid := by
  have hrun : getJWKSSigningKey E url st =
      (match storeKeys doc.Keys emptyTable with
        | panicked => panicked
        | returned (err, table) =>
          returned (err, { st with fetchAttempts := st.fetchAttempts + 1,
                                   signingKeyTable := table })) := by
    simp [getJWKSSigningKey, getKeysFromServer, hfetch, hdoc]
  refine ⟨?_, getJWKSSigningKey_withoutNonRSA E url st, ?_, ?_⟩
  · rw [jsonUnmarshal_withoutNonRSA, hdoc]
  · rw [storeKeys_removeNonRSA]
    exact hrun
  · intro err st1 h kid publicKey hk
    rw [hrun] at h
    cases hstore : storeKeys doc.Keys emptyTable with
    | panicked =>
      rw [hstore] at h
      simp at h
    | returned r =>
      obtain ⟨e, table⟩ := r
      rw [hstore] at h
      simp only [Outcome.returned.injEq, Prod.mk.injEq] at h
      rw [← h.2] at hk
      rcases storeKeys_origin doc.Keys emptyTable table e hstore kid publicKey hk with
        hempty | hkey
      · simp [emptyTable] at hempty
      · exact hkey

/-- C15 (amended) at a concrete input: a document with an RSA entry and an
entry of key type `EC` that has neither modulus nor exponent. -/
theorem non_rsa_entries_are_skipped_witness :
    jsonUnmarshal
        (withoutNonRSA (exampleEnv (.response 200 [123, 125] none)
          ⟨[some (jwk "EC" "e1" "" ""), some (jwk "RSA" "k1" "uw" "AQAB")]⟩)) [123, 125]
      = .ok ⟨removeNonRSA [some (jwk "EC" "e1" "" ""), some (jwk "RSA" "k1" "uw" "AQAB")]⟩ ∧
    getJWKSSigningKey
        (withoutNonRSA (exampleEnv (.response 200 [123, 125] none)
          ⟨[some (jwk "EC" "e1" "" ""), some (jwk "RSA" "k1" "uw" "AQAB")]⟩))
        "https://dsts.example/jwks" stateEmpty
      = getJWKSSigningKey
        (exampleEnv (.response 200 [123, 125] none)
          ⟨[some (jwk "EC" "e1" "" ""), some (jwk "RSA" "k1" "uw" "AQAB")]⟩)
        "https://dsts.example/jwks" stateEmpty ∧
    getJWKSSigningKey
        (exampleEnv (.response 200 [123, 125] none)
          ⟨[some (jwk "EC" "e1" "" ""), some (jwk "RSA" "k1" "uw" "AQAB")]⟩)
        "https://dsts.example/jwks" stateEmpty =
      (match storeKeys
          (removeNonRSA [some (jwk "EC" "e1" "" ""), some (jwk "RSA" "k1" "uw" "AQAB")])
          emptyTable with
        | panicked => panicked
        | returned (err, table) =>
          returned (err, { stateEmpty with fetchAttempts := stateEmpty.fetchAttempts + 1,
                                           signingKeyTable := table })) ∧
    ∀ err st1,
      getJWKSSigningKey
          (exampleEnv (.response 200 [123, 125] none)
            ⟨[some (jwk "EC" "e1" "" ""), some (jwk "RSA" "k1" "uw" "AQAB")]⟩)
          "https://dsts.example/jwks" stateEmpty = returned (err, st1) →
      ∀ kid publicKey, st1.signingKeyTable kid = some publicKey →
        ∃ key, some key ∈ [some (jwk "EC" "e1" "" ""), some (jwk "RSA" "k1" "uw" "AQAB")] ∧
          key.KeyType = "RSA" ∧ key.ID = kid :=
  non_rsa_entries_are_skipped
    (exampleEnv (.response 200 [123, 125] none)
      ⟨[some (jwk "EC" "e1" "" ""), some (jwk "RSA" "k1" "uw" "AQAB")]⟩)
    "https://dsts.example/jwks" stateEmpty [123, 125]
    ⟨[some (jwk "EC" "e1" "" ""), some (jwk "RSA" "k1" "uw" "AQAB")]⟩ (by rfl) (by rfl)

/-! ## The credential taken from the MQTT data (C20) -/

/-- C20: when the HTTP block leaves the token empty (whatever client id it
read from the HTTP query string), the protocols contain `mqtt`, the MQTT user
name is non-empty and parses, and `device_token` has the values
`first :: rest`, the credential is `first` and the client identity is the
MQTT `ClientID`, whatever else the parsed user name holds; for a non-empty
`first` the handler validates `first` and resolves the principal with that
`ClientID`. -/
theorem mqtt_token_from_username_and_client_id_from_transport (E : Env)
    (event : IoTCoreCustomAuthorizerRequest) (httpClientID : String)
    (protocolData : IoTCoreProtocolData) (mqtt : IoTCoreMQTTContext) (values : Values)
    (first : String) (rest : List String)
    (hhttp : httpCredentials E event = returned (.ok ("", httpClientID)))
    (hproto : "mqtt" ∈ event.Protocols)
    (hdata : event.ProtocolData = some protocolData)
    (hmqtt : protocolData.MQTT = some mqtt)
    (huser : mqtt.Username ≠ "")
    (hparse : E.parseQuery mqtt.Username = .ok values)
    (hvalue : values.lookup "device_token" = some (first :: rest)) :
    credentials E event = returned (.ok (first, mqtt.ClientID)) ∧
    ∀ (lambdaCtx : LambdaContext) (awsRegion awsAccount : String) (st : State),
      arnRegionAccount lambdaCtx.InvokedFunctionArn = returned (awsRegion, awsAccount) →
      first ≠ "" →
      IotDeviceAuthenticationHandler E (some lambdaCtx) event st =
        (match validateDstsAccessToken E first st with
          | panicked => panicked
          | returned (.error _, st1) =>
            returned ((failedAuthResponse, some ErrUnauthorized), st1)
          | returned (.ok claims, st1) =>
            returned (principalDecision awsRegion awsAccount claims mqtt.ClientID, st1)) := by
  have hp : containsProtocol event.Protocols protocolMqtt = true :=
    (containsProtocol_iff event.Protocols protocolMqtt).mpr hproto
  have hcred : credentials E event = returned (.ok (first, mqtt.ClientID)) := by
    simp [credentials, hhttp, mqttCredentials, hp, hdata, hmqtt, huser, hparse,
      getQueryParameter, paramDeviceToken, hvalue]
  refine ⟨hcred, ?_⟩
  intro lambdaCtx awsRegion awsAccount st harn hfirst
  simp only [IotDeviceAuthenticationHandler, harn, marshalIndentError, hcred, hfirst, if_false]

/-- C20 at a concrete input: the HTTP data of the event names the client id
`other`, the MQTT data carries the device token and the client id `d1`. -/
theorem mqtt_token_from_username_and_client_id_from_transport_witness :
    credentials (exampleEnv (.transportError (library "timeout")) ⟨[]⟩)
        (mixedEvent "device_token=dev" "d1") = returned (.ok ("dev", "d1")) ∧
    ∀ (lambdaCtx : LambdaContext) (awsRegion awsAccount : String) (st : State),
      arnRegionAccount lambdaCtx.InvokedFunctionArn = returned (awsRegion, awsAccount) →
      "dev" ≠ "" →
      IotDeviceAuthenticationHandler (exampleEnv (.transportError (library "timeout")) ⟨[]⟩)
          (some lambdaCtx) (mixedEvent "device_token=dev" "d1") st =
        (match validateDstsAccessToken (exampleEnv (.transportError (library "timeout")) ⟨[]⟩)
            "dev" st with
          | panicked => panicked
          | returned (.error _, st1) =>
            returned ((failedAuthResponse, some ErrUnauthorized), st1)
          | returned (.ok claims, st1) =>
            returned (principalDecision awsRegion awsAccount claims "d1", st1)) :=
  mqtt_token_from_username_and_client_id_from_transport
    (exampleEnv (.transportError (library "timeout")) ⟨[]⟩)
    (mixedEvent "device_token=dev" "d1") "other"
    { TLS := none
      HTTP := some { Headers := some [("Authorization", "Bearer ")]
                     QueryString := "client_id=other" }
      MQTT := some { ClientID := "d1", Password := [], Username := "device_token=dev" } }
    { ClientID := "d1", Password := [], Username := "device_token=dev" }
    [("device_token", ["dev"])] "dev" []
    (by rfl) (by decide) (by rfl) (by rfl) (by decide) (by rfl) (by rfl)

/-! ## The result of a fetch (C21) -/

/-- C21 (failing input): the trust source answers with status 503.
`getKeysFromServer` returns no bytes and a nil error, whereas a transport
error makes it return that error. -/
theorem getKeysFromServer_non_200_returns_nil_error :
    (getKeysFromServer (exampleEnv (.response 503 [60, 33, 62] none) ⟨[]⟩)
        "https://dsts.example/jwks" stateEmpty).1 = ([], none) ∧
    (getKeysFromServer (exampleEnv (.response 404 [] none) ⟨[]⟩)
        "https://dsts.example/jwks" stateEmpty).1 = ([], none) ∧
    (getKeysFromServer (exampleEnv (.transportError (library "timeout")) ⟨[]⟩)
        "https://dsts.example/jwks" stateEmpty).1 = ([], some (library "timeout")) := by
  refine ⟨by decide, by decide, by decide⟩

/-! ## The fields of the function ARN (C23) -/

theorem splitChars_length (sep : Char) (l : List Char) :
    (splitChars sep l).length = l.count sep + 1 := by
  induction l with
  | nil => rfl
  | cons c cs ih =>
    unfold splitChars
    by_cases hc : c = sep
    · subst hc
      simp [ih]
    · have hne : ¬ (c == sep) = true := by simpa using hc
      simp only [hc, if_false]
      cases hs : splitChars sep cs with
      | nil =>
        rw [hs] at ih
        simp at ih
      | cons piece pieces =>
        rw [hs] at ih
        simp only [List.length_cons] at ih ⊢
        rw [List.count_cons_of_ne (fun h => hc h.symm)]
        exact ih

theorem arnRegionAccount_returns_iff (invokedFunctionArn : String) :
    (∃ r, arnRegionAccount invokedFunctionArn = returned r) ↔
      4 ≤ invokedFunctionArn.data.count ':' := by
  have hlen : (Split invokedFunctionArn ':').length = invokedFunctionArn.data.count ':' + 1 := by
    unfold Split
    rw [List.length_map, splitChars_length]
  unfold arnRegionAccount
  constructor
  · rintro ⟨r, h⟩
    simp only at h
    split at h
    · simp at h
    · split at h
      · simp at h
      · rename_i _ _ _ awsAccount h4
        have := (List.getElem?_eq_some_iff.mp h4).1
        omega
  · intro h
    have h3 : 3 < (Split invokedFunctionArn ':').length := by omega
    have h4 : 4 < (Split invokedFunctionArn ':').length := by omega
    simp only [List.getElem?_eq_getElem h3, List.getElem?_eq_getElem h4]
    exact ⟨_, rfl⟩

/-- C23 (failing inputs): for the empty ARN, for an ARN of three fields and
for an ARN of four fields the index `result[3]` or `result[4]` is out of
range: `arnRegionAccount` panics and so does the handler, although the
invocation carries a lambda context.  The ARN of the source comment has
seven fields and yields its region and account. -/
theorem handler_panics_on_short_arn :
    Split "" ':' = [""] ∧
    arnRegionAccount "" = panicked ∧
    arnRegionAccount "arn:aws:lambda" = panicked ∧
    Split "arn:aws:lambda:us-west-2" ':' = ["arn", "aws", "lambda", "us-west-2"] ∧
    arnRegionAccount "arn:aws:lambda:us-west-2" = panicked ∧
    IotDeviceAuthenticationHandler (exampleEnv (.transportError (library "timeout")) ⟨[]⟩)
        (some ⟨""⟩) (mqttEvent "device_token=dev" "d1") stateWithK1 = panicked ∧
    IotDeviceAuthenticationHandler (exampleEnv (.transportError (library "timeout")) ⟨[]⟩)
        (some ⟨"arn:aws:lambda:us-west-2"⟩) (mqttEvent "device_token=dev" "d1") stateWithK1
      = panicked ∧
    arnRegionAccount exampleArn = returned ("us-west-2", "719809574944") := by
  refine ⟨by decide, rfl, rfl, by decide, rfl, rfl, rfl, rfl⟩

/-! ## A successful refresh replaces the table (C22) -/

theorem lastRSAEntry_cons (entry : Option jsonWebKey) (rest : List (Option jsonWebKey))
    (kid : String) :
    lastRSAEntry (entry :: rest) kid =
      match lastRSAEntry rest kid with
      | some key => some key
      | none => rsaEntryWithID entry kid := by
  rw [lastRSAEntry]

theorem rsaEntryWithID_some (entry : Option jsonWebKey) (kid : String) (key : jsonWebKey)
    (h : rsaEntryWithID entry kid = some key) :
    entry = some key ∧ key.KeyType = ktyRSA ∧ key.ID = kid := by
  unfold rsaEntryWithID at h
  cases entry with
  | none => simp at h
  | some k =>
    simp only at h
    split_ifs at h with hk
    simp only [Option.some.injEq] at h
    subst h
    exact ⟨rfl, hk⟩

theorem lastRSAEntry_some (keys : List (Option jsonWebKey)) (kid : String) (key : jsonWebKey)
    (h : lastRSAEntry keys kid = some key) :
    some key ∈ keys ∧ key.KeyType = ktyRSA ∧ key.ID = kid := by
  induction keys with
  | nil => simp [lastRSAEntry] at h
  | cons entry rest ih =>
    rw [lastRSAEntry_cons] at h
    cases hrest : lastRSAEntry rest kid with
    | some k =>
      rw [hrest] at h
      simp only [Option.some.injEq] at h
      subst h
      obtain ⟨hmem, hk⟩ := ih hrest
      exact ⟨List.mem_cons_of_mem _ hmem, hk⟩
    | none =>
      rw [hrest] at h
      obtain ⟨hentry, hk⟩ := rsaEntryWithID_some entry kid key h
      rw [hentry]
      exact ⟨List.mem_cons_self _ _, hk⟩

theorem lastRSAEntry_none (keys : List (Option jsonWebKey)) (kid : String)
    (h : lastRSAEntry keys kid = none) :
    ¬ ∃ key, some key ∈ keys ∧ key.KeyType = ktyRSA ∧ key.ID = kid := by
  induction keys with
  | nil => simp
  | cons entry rest ih =>
    rw [lastRSAEntry_cons] at h
    cases hrest : lastRSAEntry rest kid with
    | some k =>
      rw [hrest] at h
      simp at h
    | none =>
      rw [hrest] at h
      rintro ⟨key, hmem, hkty, hid⟩
      rcases List.mem_cons.mp hmem with heq | hmem2
      · rw [← heq] at h
        simp [rsaEntryWithID, hkty, hid] at h
      · exact ih hrest ⟨key, hmem2, hkty, hid⟩

theorem lastRSAEntry_append_rsa (keys : List (Option jsonWebKey)) (key : jsonWebKey)
    (hkty : key.KeyType = ktyRSA) :
    lastRSAEntry (keys ++ [some key]) key.ID = some key := by
  induction keys with
  | nil => simp [lastRSAEntry, rsaEntryWithID, hkty]
  | cons entry rest ih =>
    rw [List.cons_append, lastRSAEntry_cons, ih]

theorem storeKeys_success (keys : List (Option jsonWebKey)) :
    ∀ (table table1 : KeyTable), storeKeys keys table = returned (none, table1) →
      ∀ kid,
        (∀ key, lastRSAEntry keys kid = some key →
          ∃ publicKey, parseRSASigningKey key = .ok publicKey ∧ table1 kid = some publicKey) ∧
        (lastRSAEntry keys kid = none → table1 kid = table kid) := by
  induction keys with
  | nil =>
    intro table table1 h kid
    simp only [storeKeys, Outcome.returned.injEq, Prod.mk.injEq, true_and] at h
    subst h
    simp [lastRSAEntry]
  | cons entry rest ih =>
    intro table table1 h kid
    cases entry with
    | none => simp [storeKeys] at h
    | some k =>
      by_cases hkty : k.KeyType = ktyRSA
      · simp only [storeKeys, hkty, if_true] at h
        cases hparse : parseRSASigningKey k with
        | error e =>
          rw [hparse] at h
          simp at h
        | ok parsed =>
          rw [hparse] at h
          obtain ⟨hsome, hnone⟩ := ih _ _ h kid
          cases hrest : lastRSAEntry rest kid with
          | some k2 =>
            refine ⟨?_, ?_⟩
            · intro key hkey
              simp only [lastRSAEntry_cons, hrest, Option.some.injEq] at hkey
              subst hkey
              exact hsome k2 hrest
            · intro hkey
              simp [lastRSAEntry_cons, hrest] at hkey
          | none =>
            have htab := hnone hrest
            by_cases hid : k.ID = kid
            · refine ⟨?_, ?_⟩
              · intro key hkey
                simp only [lastRSAEntry_cons, hrest, rsaEntryWithID, hkty, hid, and_self, if_true,
                  Option.some.injEq] at hkey
                subst hkey
                refine ⟨parsed, hparse, ?_⟩
                rw [htab]
                simp [KeyTable.set, hid]
              · intro hkey
                simp [lastRSAEntry_cons, hrest, rsaEntryWithID, hkty, hid] at hkey
            · refine ⟨?_, ?_⟩
              · intro key hkey
                simp [lastRSAEntry_cons, hrest, rsaEntryWithID, hkty, hid] at hkey
              · intro _
                rw [htab]
                have hne : ¬ kid = k.ID := fun h => hid h.symm
                simp [KeyTable.set, hne]
      · simp only [storeKeys, hkty, if_false] at h
        obtain ⟨hsome, hnone⟩ := ih _ _ h kid
        cases hrest : lastRSAEntry rest kid with
        | some k2 =>
          refine ⟨?_, ?_⟩
          · intro key hkey
            simp only [lastRSAEntry_cons, hrest, Option.some.injEq] at hkey
            subst hkey
            exact hsome k2 hrest
          · intro hkey
            simp [lastRSAEntry_cons, hrest] at hkey
        | none =>
          refine ⟨?_, ?_⟩
          · intro key hkey
            simp [lastRSAEntry_cons, hrest, rsaEntryWithID, hkty] at hkey
          · intro _
            exact hnone hrest

theorem getJWKSSigningKey_of_document (E : Env) (url : String) (st : State)
    (body : List Byte) (doc : rawJWKS)
    (hfetch : E.httpGet url st.fetchAttempts = .response 200 body none)
    (hdoc : jsonUnmarshal E body = .ok doc) :
    getJWKSSigningKey E url st =
      (match storeKeys doc.Keys emptyTable with
        | panicked => panicked
        | returned (err, table) =>
          returned (err, { st with fetchAttempts := st.fetchAttempts + 1,
                                   signingKeyTable := table })) := by
  simp [getJWKSSigningKey, getKeysFromServer, hfetch, hdoc]

/-- C22: when the fetch gives a body that decodes to the document `doc` and
`getJWKSSigningKey` returns no error, the table it leaves has exactly the key
ids of the RSA entries of `doc`; under each key id it holds the key parsed
from the last RSA entry with that key id; a key id cached before that no RSA
entry of `doc` carries is gone; the refresh started from any other state
that fetches the same body succeeds with the same table; and a second
refresh with the same body leaves the table as it is. -/
theorem successful_refresh_replaces_table (E : Env) (url : String) (st st1 : State)
    (body : List Byte) (doc : rawJWKS)
    (hfetch : E.httpGet url st.fetchAttempts = .response 200 body none)
    (hdoc : jsonUnmarshal E body = .ok doc)
    (hok : getJWKSSigningKey E url st = returned (none, st1)) :
    (∀ kid, st1.signingKeyTable kid ≠ none ↔
      ∃ key, some key ∈ doc.Keys ∧ key.KeyType = "RSA" ∧ key.ID = kid) ∧
    (∀ kid key, lastRSAEntry doc.Keys kid = some key →
      ∃ publicKey, parseRSASigningKey key = .ok publicKey ∧
        st1.signingKeyTable kid = some publicKey) ∧
    (∀ kid, st.signingKeyTable kid ≠ none →
      (¬ ∃ key, some key ∈ doc.Keys ∧ key.KeyType = "RSA" ∧ key.ID = kid) →
      st1.signingKeyTable kid = none) ∧
    (∀ other : State, E.httpGet url other.fetchAttempts = .response 200 body none →
      ∃ other1, getJWKSSigningKey E url other = returned (none, other1) ∧
        other1.signingKeyTable = st1.signingKeyTable) ∧
    (E.httpGet url st1.fetchAttempts = .response 200 body none →
      ∃ st2, getJWKSSigningKey E url st1 = returned (none, st2) ∧
        st2.signingKeyTable = st1.signingKeyTable) := by
  have hrun := getJWKSSigningKey_of_document E url st body doc hfetch hdoc
  rw [hok] at hrun
  cases hstore : storeKeys doc.Keys emptyTable with
  | panicked =>
    rw [hstore] at hrun
    simp at hrun
  | returned r =>
    obtain ⟨e, table⟩ := r
    rw [hstore] at hrun
    simp only [Outcome.returned.injEq, Prod.mk.injEq] at hrun
    obtain ⟨herr, hst1⟩ := hrun
    subst herr
    have htable : st1.signingKeyTable = table := by rw [hst1]
    have hspec := storeKeys_success doc.Keys emptyTable table hstore
    have hiff : ∀ kid, st1.signingKeyTable kid ≠ none ↔
        ∃ key, some key ∈ doc.Keys ∧ key.KeyType = "RSA" ∧ key.ID = kid := by
      intro kid
      rw [htable]
      cases hlast : lastRSAEntry doc.Keys kid with
      | some key =>
        obtain ⟨publicKey, _, hk⟩ := (hspec kid).1 key hlast
        constructor
        · intro _
          exact ⟨key, lastRSAEntry_some doc.Keys kid key hlast⟩
        · intro _
          rw [hk]
          simp
      | none =>
        have hk := (hspec kid).2 hlast
        constructor
        · intro hne
          rw [hk] at hne
          simp [emptyTable] at hne
        · intro hex
          exact absurd hex (lastRSAEntry_none doc.Keys kid hlast)
    have hother : ∀ other : State,
        E.httpGet url other.fetchAttempts = .response 200 body none →
        ∃ other1, getJWKSSigningKey E url other = returned (none, other1) ∧
          other1.signingKeyTable = st1.signingKeyTable := by
      intro other hf
      have h2 := getJWKSSigningKey_of_document E url other body doc hf hdoc
      rw [hstore] at h2
      exact ⟨_, h2, by rw [htable]⟩
    refine ⟨hiff, ?_, ?_, hother, hother st1⟩
    · intro kid key hlast
      rw [htable]
      exact (hspec kid).1 key hlast
    · intro kid _ hno
      by_contra hne
      exact hno ((hiff kid).mp hne)

/-- C22 at a concrete input: `k1` and `old` are cached; the document has two
RSA entries with the key id `k1` and an entry of key type `EC`. -/
theorem successful_refresh_replaces_table_witness :
    (∀ kid, stateRefreshed.signingKeyTable kid ≠ none ↔
      ∃ key, some key ∈ twoRSADocument.Keys ∧ key.KeyType = "RSA" ∧ key.ID = kid) ∧
    (∀ kid key, lastRSAEntry twoRSADocument.Keys kid = some key →
      ∃ publicKey, parseRSASigningKey key = .ok publicKey ∧
        stateRefreshed.signingKeyTable kid = some publicKey) ∧
    (∀ kid, stateWithOld.signingKeyTable kid ≠ none →
      (¬ ∃ key, some key ∈ twoRSADocument.Keys ∧ key.KeyType = "RSA" ∧ key.ID = kid) →
      stateRefreshed.signingKeyTable kid = none) ∧
    (∀ other : State,
      (exampleEnv (.response 200 [123, 125] none) twoRSADocument).httpGet
          "https://dsts.example/jwks" other.fetchAttempts = .response 200 [123, 125] none →
      ∃ other1,
        getJWKSSigningKey (exampleEnv (.response 200 [123, 125] none) twoRSADocument)
            "https://dsts.example/jwks" other = returned (none, other1) ∧
        other1.signingKeyTable = stateRefreshed.signingKeyTable) ∧
    ((exampleEnv (.response 200 [123, 125] none) twoRSADocument).httpGet
          "https://dsts.example/jwks" stateRefreshed.fetchAttempts
        = .response 200 [123, 125] none →
      ∃ st2,
        getJWKSSigningKey (exampleEnv (.response 200 [123, 125] none) twoRSADocument)
            "https://dsts.example/jwks" stateRefreshed = returned (none, st2) ∧
        st2.signingKeyTable = stateRefreshed.signingKeyTable) :=
  successful_refresh_replaces_table
    (exampleEnv (.response 200 [123, 125] none) twoRSADocument)
    "https://dsts.example/jwks" stateWithOld stateRefreshed [123, 125] twoRSADocument
    (by rfl) (by rfl) (by rfl)

end KryptonIot
